import Mathlib

/-!
A shallow embedding of the core of the `evo-wasm` repository (crates
`evo-core`, `evo-world`, `evo-ir`) in Lean 4, together with theorems that
settle the specification claims C1-C10 against the code.

Modelling conventions:
* Rust `i32` values are `ℤ` together with the predicate `inI32`; arithmetic
  that can overflow is modelled with explicit two's-complement wrapping
  (`wrap32`, `add32`, `mul32`), the behaviour of release builds.
* Rust `f32` values are modelled as exact rationals `ℚ`; `as i32` casts are
  truncation toward zero with saturation (`f32toI32`).  No claim below
  depends on `f32` rounding: wherever a theorem asserts an exact value the
  `f32` computation is exact as well.  Because Mathlib's field operations
  on `ℚ` do not reduce under the kernel, the embedding uses the
  `mkRat`-based equivalents `qmul`/`qadd`/`qsub`/`qdiv`, each proved equal
  to the corresponding field operation.
* `HashMap` state is modelled as an association list with the usual
  replace-on-insert semantics; hash order is never observed by any claim
  settled here.
* The seeded `ChaCha8Rng` is modelled as an arbitrary stream of naturals
  (`Rng`): every draw the code makes consumes exactly one stream element,
  so for every concrete seed there is a stream producing the same draws.
  Operating-system randomness (`Uuid::new_v4` inside `OrganismId::new`) is
  modelled by a second, independent stream (`Entropy`), since it is not
  derived from the simulation's seeded RNG.
-/

namespace Evo

/-! ## Machine arithmetic -/

/-- The value range of Rust's `i32`. -/
def inI32 (n : ℤ) : Prop := -(2 ^ 31) ≤ n ∧ n < 2 ^ 31

instance : DecidablePred inI32 := fun n => by unfold inI32; infer_instance

/-- Two's-complement reduction into the `i32` range: the result of
overflowing Rust `i32` arithmetic in release builds. -/
def wrap32 (n : ℤ) : ℤ := (n + 2 ^ 31) % 2 ^ 32 - 2 ^ 31

/-- Rust `i32` addition (wrapping on overflow). -/
def add32 (a b : ℤ) : ℤ := wrap32 (a + b)

/-- Rust `i32` multiplication (wrapping on overflow). -/
def mul32 (a b : ℤ) : ℤ := wrap32 (a * b)

/-- Rust `%` on `i32`: truncated remainder, taking the sign of the
dividend.  (It cannot overflow for a positive divisor.) -/
def i32rem (a b : ℤ) : ℤ := Int.tmod a b

/-- `max` on `ℤ`, written so that kernel reduction can evaluate it. -/
def imax (a b : ℤ) : ℤ := if a ≤ b then b else a

/-- `min` on `ℤ`, written so that kernel reduction can evaluate it. -/
def imin (a b : ℤ) : ℤ := if a ≤ b then a else b

/-- Rust `i32::saturating_add`. -/
def satAdd32 (a b : ℤ) : ℤ := imax (-(2 ^ 31)) (imin (2 ^ 31 - 1) (a + b))

/-- Executable multiplication on `ℚ` (proved equal to `*` below). -/
def qmul (a b : ℚ) : ℚ := mkRat (a.num * b.num) (a.den * b.den)

/-- Executable addition on `ℚ` (proved equal to `+` below). -/
def qadd (a b : ℚ) : ℚ := mkRat (a.num * b.den + b.num * a.den) (a.den * b.den)

/-- Executable subtraction on `ℚ` (proved equal to `-` below). -/
def qsub (a b : ℚ) : ℚ := mkRat (a.num * b.den - b.num * a.den) (a.den * b.den)

/-- Executable division on `ℚ` (proved equal to `/` below). -/
def qdiv (a b : ℚ) : ℚ :=
  if b.num < 0 then mkRat (-(a.num * b.den)) (a.den * (-b.num).toNat)
  else mkRat (a.num * b.den) (a.den * b.num.toNat)

/-- Truncation of a rational toward zero (the rounding used by Rust's
float-to-int casts): truncated division of numerator by denominator. -/
def ratTrunc (q : ℚ) : ℤ := q.num.tdiv q.den

/-- Rust `f32 as i32`: truncation toward zero, saturating at the `i32`
bounds.  The float operand is modelled as an exact rational. -/
def f32toI32 (q : ℚ) : ℤ := imax (-(2 ^ 31)) (imin (2 ^ 31 - 1) (ratTrunc q))

/-- Executable negation on `ℚ`. -/
def qneg (q : ℚ) : ℚ := mkRat (-q.num) q.den

/-- The power `2 ^ z` as a rational, executable for either sign of `z`. -/
def zpow2 (z : ℤ) : ℚ := if 0 ≤ z then ((2 ^ z.toNat : ℕ) : ℚ) else mkRat 1 (2 ^ (-z).toNat)

/-- Round a nonnegative rational to the nearest integer, ties to even
(the integer step of IEEE-754 round-to-nearest-even). -/
def rhe (x : ℚ) : ℤ :=
  if qsub x ((ratTrunc x : ℤ) : ℚ) < mkRat 1 2 then ratTrunc x
  else if mkRat 1 2 < qsub x ((ratTrunc x : ℤ) : ℚ) then ratTrunc x + 1
  else if ratTrunc x % 2 = 0 then ratTrunc x else ratTrunc x + 1

/-- One step of the binary search for the binade exponent. -/
def expStep32 (q : ℚ) (e w : ℤ) : ℤ := if zpow2 (e + w) ≤ q then e + w else e

/-- The binade exponent of a positive `q`: the `e` with
`2^e ≤ q < 2^(e+1)`, found by binary search over `[-126, 129]`. -/
def expSearch (q : ℚ) : ℤ :=
  expStep32 (q) (expStep32 (q) (expStep32 (q) (expStep32 (q) (expStep32 (q) (expStep32 (q)
    (expStep32 (q) (expStep32 (q) (-126) 128) 64) 32) 16) 8) 4) 2) 1

/-- Round a positive rational to the nearest `f32` value, ties to even:
normal numbers round on the `2^(e-23)` grid of their binade, values
below `2^-126` on the subnormal grid `2^-149`.  (Values at or beyond
`2^128`, which real `f32` arithmetic turns into infinity, are rounded on
a coarse grid instead; no statement proved in this file reaches them.) -/
def roundPos (q : ℚ) : ℚ :=
  if q < zpow2 (-126) then qmul ((rhe (qmul q (zpow2 149)) : ℤ) : ℚ) (zpow2 (-149))
  else qmul ((rhe (qdiv q (zpow2 (expSearch q - 23))) : ℤ) : ℚ) (zpow2 (expSearch q - 23))

/-- IEEE-754 `binary32` rounding of an exact rational: round to nearest,
ties to even, symmetric in sign.  Every `f32` the program computes is
modelled as the exact rational value of its bits, and every `f32`
operation as the exact rational operation followed by this rounding. -/
def roundF32 (q : ℚ) : ℚ :=
  if q = 0 then 0
  else if 0 < q then roundPos q
  else qneg (roundPos (qneg q))

/-- `f32` multiplication: the exact product, rounded. -/
def f32mul (a b : ℚ) : ℚ := roundF32 (qmul a b)

/-- `f32` division: the exact quotient, rounded. -/
def f32div (a b : ℚ) : ℚ := roundF32 (qdiv a b)

/-- `f32` subtraction: the exact difference, rounded. -/
def f32sub (a b : ℚ) : ℚ := roundF32 (qsub a b)

/-- Rust `i32 as f32`: integers of magnitude above `2^24` are not
exactly representable and round. -/
def i32toF32 (n : ℤ) : ℚ := roundF32 ((n : ℤ) : ℚ)

/-! ## `evo-core/src/types.rs`: `Position` -/

/-- `Position` from `evo-core/src/types.rs` (`x`, `y` are `i32`). -/
structure Position where
  x : ℤ
  y : ℤ
deriving DecidableEq, Repr

namespace Position

/-- `Position::new`. -/
def new (x y : ℤ) : Position := ⟨x, y⟩

/-- `Position::add`: componentwise `i32` addition (wrapping), first
argument is `dx`, second is `dy`. -/
def add (p : Position) (dx dy : ℤ) : Position := ⟨add32 p.x dx, add32 p.y dy⟩

/-- `Position::wrap`: `((v % d) + d) % d` per axis with Rust `%`
(truncated remainder); the inner `+` is `i32` addition and can wrap. -/
def wrap (p : Position) (width height : ℤ) : Position :=
  ⟨i32rem (add32 (i32rem p.x width) width) width,
   i32rem (add32 (i32rem p.y height) height) height⟩

end Position

/-! ## `evo-core/src/types.rs`: tiles -/

/-- `TileType`. -/
inductive TileType where
  | Empty
  | Resource
  | Obstacle
  | Hazard
deriving DecidableEq, Repr

/-- `Tile` (`resource_amount`, `max_resource` are `i32`). -/
structure Tile where
  tile_type : TileType
  resource_amount : ℤ
  max_resource : ℤ
deriving DecidableEq, Repr

namespace Tile

/-- `Tile::empty`. -/
def empty : Tile := ⟨.Empty, 0, 0⟩

/-- `Tile::resource`. -/
def resource (amount mx : ℤ) : Tile := ⟨.Resource, amount, mx⟩

/-- `Tile::obstacle`. -/
def obstacle : Tile := ⟨.Obstacle, 0, 0⟩

/-- `Tile::hazard`. -/
def hazard : Tile := ⟨.Hazard, 0, 0⟩

/-- `Tile::regenerate`: logistic growth on `Resource` tiles below
capacity.  The growth term
`rate * (r as f32) * (1.0 - (r as f32) / (max as f32))` is computed in
`f32`: the two `as f32` casts and each binary operation round to nearest
(ties to even).  The result is cast with `as i32` (truncating,
saturating), clamped below by `1` (`growth.max(1)`), added with `i32`
addition (which can wrap), and clamped above by `max_resource`
(`.min(...)`). -/
def regenerate (t : Tile) (rate : ℚ) : Tile :=
  if t.tile_type = .Resource ∧ t.resource_amount < t.max_resource then
    let a := i32toF32 t.resource_amount
    let m := i32toF32 t.max_resource
    let growth := f32toI32 (f32mul (f32mul rate a) (f32sub 1 (f32div a m)))
    { t with resource_amount := imin (add32 t.resource_amount (imax growth 1)) t.max_resource }
  else t

end Tile

/-! ## `evo-world/src/grid.rs`: `Grid` -/

/-- `Grid` from `evo-world/src/grid.rs`: `width`/`height` are `i32`, the
tiles a row-major vector. -/
structure Grid where
  width : ℤ
  height : ℤ
  tiles : List Tile
deriving DecidableEq, Repr

namespace Grid

/-- `Grid::new`: an all-empty grid of `(width * height) as usize` tiles. -/
def new (width height : ℤ) : Grid :=
  ⟨width, height, List.replicate ((wrap32 (width * height)) % 2 ^ 64).toNat Tile.empty⟩

/-- `pos_to_index`: `(pos.y * self.width + pos.x) as usize`.  The `i32`
product and sum wrap, and the `as usize` cast sign-extends to 64 bits. -/
def pos_to_index (g : Grid) (pos : Position) : ℕ :=
  ((add32 (mul32 pos.y g.width) pos.x) % 2 ^ 64).toNat

/-- `Grid::get`: wrap the position, then index the tile vector.  The
source indexes `self.tiles[index]` directly (a panic when out of range);
for well-formed grids the wrapped index is always in range, so the `getD`
default is never observed. -/
def get (g : Grid) (pos : Position) : Tile :=
  g.tiles.getD (g.pos_to_index (pos.wrap g.width g.height)) Tile.empty

/-- `Grid::set`. -/
def set (g : Grid) (pos : Position) (tile : Tile) : Grid :=
  { g with tiles := g.tiles.set (g.pos_to_index (pos.wrap g.width g.height)) tile }

/-- `Grid::regenerate_resources`: regenerate every tile. -/
def regenerate_resources (g : Grid) (rate : ℚ) : Grid :=
  { g with tiles := g.tiles.map (fun t => t.regenerate rate) }

/-- The inclusive integer range `lo..=hi` of Rust, as a list. -/
def intRangeIncl (lo hi : ℤ) : List ℤ :=
  (List.range (hi + 1 - lo).toNat).map (fun k => lo + k)

/-- `Grid::neighbors`: for `dy` in `-radius..=radius` (outer) and `dx` in
`-radius..=radius` (inner), skipping `(0,0)`, pair the *unwrapped*
position `pos.add(dx, dy)` with the tile `get` reads there (which wraps
internally). -/
def neighbors (g : Grid) (pos : Position) (radius : ℤ) : List (Position × Tile) :=
  (intRangeIncl (-radius) radius).flatMap (fun dy =>
    (intRangeIncl (-radius) radius).filterMap (fun dx =>
      if dx = 0 ∧ dy = 0 then none
      else some (pos.add dx dy, g.get (pos.add dx dy))))

end Grid

/-! ## `evo-ir/src/instruction.rs` -/

/-- `Register(pub u8)`.  The payload is a `u8`; every register index the
code ever stores is below 16, so no wrapping arises. -/
structure Register where
  val : ℕ
deriving DecidableEq, Repr

/-- `Value`: immediate values (`i32`, `f32`, `bool`). -/
inductive Value where
  | Int (v : ℤ)
  | Float (v : ℚ)
  | Bool (v : Bool)
deriving DecidableEq, Repr

/-- `Opcode`. -/
inductive Opcode where
  | Add | Sub | Mul | Div | Mod | Neg | Abs | Min | Max
  | Eq | Ne | Lt | Le | Gt | Ge
  | And | Or | Not | Xor
  | Load | Store | LoadConst
  | Branch | BranchIf | Call | Return
  | SenseEnv | SenseNeighbor | GetEnergy | GetAge
  | Move | Eat | Attack | Reproduce | EmitSignal
deriving DecidableEq, Repr

namespace Opcode

/-- `Opcode::num_operands`: the arity table. -/
def num_operands : Opcode → ℕ
  | .Neg | .Not | .Abs => 1
  | .Add | .Sub | .Mul | .Div | .Mod => 2
  | .Eq | .Ne | .Lt | .Le | .Gt | .Ge => 2
  | .And | .Or | .Xor => 2
  | .Min | .Max => 2
  | .Load | .Store => 1
  | .LoadConst => 0
  | .Branch => 0
  | .BranchIf => 1
  | .Call => 0
  | .Return => 0
  | .SenseEnv => 2
  | .SenseNeighbor => 1
  | .GetEnergy => 0
  | .GetAge => 0
  | .Move => 2
  | .Eat => 0
  | .Attack => 2
  | .Reproduce => 0
  | .EmitSignal => 2

end Opcode

/-- `Operand` (block/function indices are `u32`). -/
inductive Operand where
  | Register (r : Register)
  | Immediate (v : Value)
  | BlockIndex (i : ℕ)
  | FunctionIndex (i : ℕ)
deriving DecidableEq, Repr

/-- `Instruction`. -/
structure Instruction where
  opcode : Opcode
  dest : Option Register
  operands : List Operand
deriving DecidableEq, Repr

namespace Instruction

/-- `Instruction::new`. -/
def new (opcode : Opcode) : Instruction := ⟨opcode, none, []⟩

/-- `Instruction::with_dest`. -/
def with_dest (inst : Instruction) (reg : Register) : Instruction :=
  { inst with dest := some reg }

/-- `Instruction::with_operand` (pushes one operand). -/
def with_operand (inst : Instruction) (operand : Operand) : Instruction :=
  { inst with operands := inst.operands ++ [operand] }

/-- `Instruction::arithmetic`. -/
def arithmetic (opcode : Opcode) (dest a b : Register) : Instruction :=
  ⟨opcode, some dest, [.Register a, .Register b]⟩

/-- `Instruction::load_const`: a `LoadConst` with **one** immediate
operand (although the arity table assigns `LoadConst` arity 0). -/
def load_const (dest : Register) (value : Value) : Instruction :=
  ⟨.LoadConst, some dest, [.Immediate value]⟩

/-- `Instruction::branch`. -/
def branch (block : ℕ) : Instruction := ⟨.Branch, none, [.BlockIndex block]⟩

/-- `Instruction::branch_if`. -/
def branch_if (condition : Register) (block : ℕ) : Instruction :=
  ⟨.BranchIf, none, [.Register condition, .BlockIndex block]⟩

/-- `Instruction::return_void`. -/
def return_void : Instruction := ⟨.Return, none, []⟩

/-- `Instruction::return_value`: a `Return` with one register operand. -/
def return_value (reg : Register) : Instruction := ⟨.Return, none, [.Register reg]⟩

end Instruction

/-! ## `evo-ir/src/program.rs` -/

/-- `BasicBlock`. -/
structure BasicBlock where
  instructions : List Instruction
deriving DecidableEq, Repr

namespace BasicBlock

/-- `BasicBlock::new`. -/
def new : BasicBlock := ⟨[]⟩

/-- `BasicBlock::is_empty`. -/
def is_empty (b : BasicBlock) : Bool := b.instructions.isEmpty

end BasicBlock

/-- `ReturnType`. -/
inductive ReturnType where
  | Void
  | Int
deriving DecidableEq, Repr

/-- `Function`. -/
structure Function where
  name : String
  num_params : ℕ
  num_locals : ℕ
  blocks : List BasicBlock
  return_type : ReturnType
deriving DecidableEq, Repr

namespace Function

/-- `Function::new`: starts with one empty basic block and no locals. -/
def new (name : String) (num_params : ℕ) (return_type : ReturnType) : Function :=
  ⟨name, num_params, 0, [BasicBlock.new], return_type⟩

end Function

/-- `Program` (`memory_size` and `version` are irrelevant to the claims
but kept for fidelity). -/
structure Program where
  functions : List Function
  memory_size : ℕ
  version : ℕ
deriving DecidableEq, Repr

namespace Program

/-- `Program::new`. -/
def new : Program := ⟨[], 256, 1⟩

/-- `Program::with_functions`. -/
def with_functions (functions : List Function) : Program := ⟨functions, 256, 1⟩

/-- `Program::get_step_function`: first function named `step`. -/
def get_step_function (p : Program) : Option Function :=
  p.functions.find? (fun f => f.name == "step")

/-- `Program::get_init_function`: first function named `init`. -/
def get_init_function (p : Program) : Option Function :=
  p.functions.find? (fun f => f.name == "init")

end Program

/-! ## `evo-ir/src/validation.rs` -/

/-- The body of `validate_function`'s block loop: the first empty
non-terminal block yields a `Validation` error.  `total` is the number of
blocks of the function; the list carries `(block_idx, block)` pairs. -/
def validate_function_blocks (fidx total : ℕ) : List (ℕ × BasicBlock) → Except String Unit
  | [] => .ok ()
  | (bidx, b) :: rest =>
    if b.is_empty ∧ bidx < total - 1 then
      .error ("Function " ++ toString fidx ++ " block " ++ toString bidx ++ " is empty")
    else validate_function_blocks fidx total rest

/-- `validate_function`. -/
def validate_function (func : Function) (idx : ℕ) : Except String Unit :=
  if func.blocks.isEmpty then
    .error ("Function " ++ toString idx ++ " has no basic blocks")
  else validate_function_blocks idx func.blocks.length func.blocks.enum

/-- The `for (idx, func)` loop of `validate_program`. -/
def validate_functions : List (ℕ × Function) → Except String Unit
  | [] => .ok ()
  | (idx, f) :: rest =>
    match validate_function f idx with
    | .error e => .error e
    | .ok _ => validate_functions rest

/-- `validate_program`: requires `init` and `step` to exist, then
validates every function.  All errors are `Validation` errors (the only
error kind this function constructs). -/
def validate_program (program : Program) : Except String Unit :=
  if program.get_init_function.isNone then
    .error "Missing required init function"
  else if program.get_step_function.isNone then
    .error "Missing required step function"
  else validate_functions program.functions.enum

/-! ## The seeded RNG model -/

/-- The seeded `ChaCha8Rng`, modelled as an arbitrary stream of naturals
with a cursor.  Every `rng.gen…` call in the source consumes exactly one
stream element, in source order; for every concrete seed there is a
stream reproducing its draws, so theorems quantified over all streams
cover every seed. -/
structure Rng where
  stream : ℕ → ℕ
  idx : ℕ

namespace Rng

/-- Draw the next raw value and advance. -/
def next (r : Rng) : ℕ × Rng := (r.stream r.idx, ⟨r.stream, r.idx + 1⟩)

/-- `rng.gen_range(lo..hi)` on naturals (`lo < hi`). -/
def genRangeNat (r : Rng) (lo hi : ℕ) : ℕ × Rng :=
  (lo + r.next.1 % (hi - lo), r.next.2)

/-- `rng.gen_range(lo..hi)` on `i32` (`lo < hi`). -/
def genRange (r : Rng) (lo hi : ℤ) : ℤ × Rng :=
  (lo + (r.next.1 : ℤ) % (hi - lo), r.next.2)

/-- `rng.gen_range(lo..=hi)` on `i32`. -/
def genRangeIncl (r : Rng) (lo hi : ℤ) : ℤ × Rng := r.genRange lo (hi + 1)

/-- `rng.gen::<f32>()`: a uniform draw in `[0, 1)` of the form
`k / 2^24`, the exact shape `rand` produces for `f32`. -/
def genF32 (r : Rng) : ℚ × Rng := (mkRat (r.next.1 % 2 ^ 24) (2 ^ 24), r.next.2)

/-- `rng.gen_range(-1.0..=1.0)`: a uniform `f32` draw in `[-1, 1]`,
modelled as `(k - 2^23) / 2^23`. -/
def genF32Signed (r : Rng) : ℚ × Rng :=
  (mkRat ((r.next.1 % (2 ^ 24 + 1) : ℕ) - 2 ^ 23 : ℤ) (2 ^ 23), r.next.2)

/-- `rng.gen::<u32>()`. -/
def genU32 (r : Rng) : ℕ × Rng := (r.next.1 % 2 ^ 32, r.next.2)

end Rng

/-! ## `evo-ir/src/mutation.rs` -/

/-- `MutationConfig`.  The `f32` rate fields are modelled as exact
rationals. -/
structure MutationConfig where
  point_mutation_rate : ℚ
  insertion_rate : ℚ
  deletion_rate : ℚ
  block_duplication_rate : ℚ
  function_addition_rate : ℚ
  max_instructions_per_function : ℕ
  max_functions : ℕ
  max_locals : ℕ
deriving Repr

/-- `MutationConfig::default()`.  The `f32` literals `0.01`, `0.005`,
`0.001`, `0.0001` are modelled as the exact rationals they denote; their
`f32` round-off (< 2⁻²⁸) is never observable in any claim below. -/
def MutationConfig.default : MutationConfig :=
  ⟨mkRat 1 100, mkRat 5 1000, mkRat 5 1000, mkRat 1 1000, mkRat 1 10000, 100, 10, 16⟩

/-- `Mutator`. -/
structure Mutator where
  config : MutationConfig

/-- The list of opcodes `generate_random_instruction` samples from, in
source order. -/
def randOpcodes : List Opcode :=
  [.Add, .Sub, .Mul, .Div, .Mod, .Neg, .Abs, .Min, .Max,
   .Eq, .Ne, .Lt, .Le, .Gt, .Ge,
   .And, .Or, .Xor, .Not,
   .LoadConst,
   .GetEnergy, .GetAge, .Move, .Eat, .SenseEnv, .SenseNeighbor, .Attack,
   .Reproduce, .EmitSignal]

/-- `[...].iter().nth(rng.gen_range(0..len)).unwrap()`: pick a random
element of a (non-empty) opcode class. -/
def pickOpcode (cls : List Opcode) (fallback : Opcode) (rng : Rng) : Opcode × Rng :=
  let k := rng.genRangeNat 0 cls.length
  (cls.getD k.1 fallback, k.2)

namespace Mutator

/-- `Mutator::mutate_opcode`: replace an opcode within its arity class;
opcodes outside the listed classes are returned unchanged (consuming no
randomness). -/
def mutate_opcode (_m : Mutator) (opcode : Opcode) (rng : Rng) : Opcode × Rng :=
  match opcode with
  | .Add | .Sub | .Mul | .Div | .Mod =>
    pickOpcode [.Add, .Sub, .Mul, .Div, .Mod] opcode rng
  | .Neg | .Abs => pickOpcode [.Neg, .Abs] opcode rng
  | .Min | .Max => pickOpcode [.Min, .Max] opcode rng
  | .Eq | .Ne | .Lt | .Le | .Gt | .Ge =>
    pickOpcode [.Eq, .Ne, .Lt, .Le, .Gt, .Ge] opcode rng
  | .And | .Or | .Xor => pickOpcode [.And, .Or, .Xor] opcode rng
  | .GetEnergy | .GetAge => pickOpcode [.GetEnergy, .GetAge] opcode rng
  | _ => (opcode, rng)

/-- `Mutator::mutate_operand`. -/
def mutate_operand (_m : Mutator) (operand : Operand) (rng : Rng) : Operand × Rng :=
  match operand with
  | .Register _ =>
    let r := rng.genRangeNat 0 16
    (.Register ⟨r.1⟩, r.2)
  | .Immediate val =>
    match val with
    | .Int v =>
      let r := rng.genRangeIncl (-10) 10
      (.Immediate (.Int (satAdd32 v r.1)), r.2)
    | .Float v =>
      let r := rng.genF32Signed
      (.Immediate (.Float (qadd v r.1)), r.2)
    | .Bool v =>
      let r := rng.genF32
      (.Immediate (.Bool (if r.1 < mkRat 1 2 then !v else v)), r.2)
  | .BlockIndex _ =>
    let r := rng.genRangeNat 0 8
    (.BlockIndex r.1, r.2)
  | .FunctionIndex _ =>
    let r := rng.genRangeNat 0 8
    (.FunctionIndex r.1, r.2)

/-- The `for operand in &mut inst.operands` loop of `point_mutate`: each
operand is perturbed independently with probability `0.5`. -/
def mutate_operands_each (m : Mutator) : List Operand → Rng → List Operand × Rng
  | [], rng => ([], rng)
  | op :: rest, rng =>
    let r := rng.genF32
    let o := if r.1 < mkRat 1 2 then m.mutate_operand op r.2 else (op, r.2)
    let os := m.mutate_operands_each rest o.2
    (o.1 :: os.1, os.2)

/-- The body of `point_mutate` once the `gen_range(0..3)` selector `k`
has been drawn (factored out so the match can be reasoned about). -/
def point_mutate_go (m : Mutator) (inst : Instruction) (k : ℕ) (rng : Rng) :
    Instruction × Rng :=
  match k with
  | 0 =>
    let o := m.mutate_opcode inst.opcode rng
    ({ inst with opcode := o.1 }, o.2)
  | 1 =>
    let o := m.mutate_operands_each inst.operands rng
    ({ inst with operands := o.1 }, o.2)
  | _ =>
    match inst.dest with
    | some _ =>
      let v := rng.genRangeNat 0 16
      ({ inst with dest := some ⟨v.1⟩ }, v.2)
    | none => (inst, rng)

/-- `Mutator::point_mutate`: one of three sub-operations chosen by
`gen_range(0..3)`.  When the chosen sub-operation is the destination
resample and the instruction has no destination, no draw is consumed. -/
def point_mutate (m : Mutator) (inst : Instruction) (rng : Rng) : Instruction × Rng :=
  point_mutate_go m inst (rng.genRangeNat 0 3).1 (rng.genRangeNat 0 3).2

/-- The body of `generate_random_instruction` once the opcode has been
drawn (factored out so the match can be reasoned about). -/
def generate_random_instruction_go (opcode : Opcode) (rng : Rng) : Instruction × Rng :=
  match opcode with
  | .Add | .Sub | .Mul | .Div | .Mod | .Eq | .Ne | .Lt | .Le | .Gt | .Ge
  | .And | .Or | .Xor | .Min | .Max =>
    let d := rng.genRangeNat 0 8
    let a := d.2.genRangeNat 0 8
    let b := a.2.genRangeNat 0 8
    (Instruction.arithmetic opcode ⟨d.1⟩ ⟨a.1⟩ ⟨b.1⟩, b.2)
  | .Not | .Neg | .Abs =>
    let a := rng.genRangeNat 0 8
    let d := a.2.genRangeNat 0 8
    (((Instruction.new opcode).with_operand (.Register ⟨a.1⟩)).with_dest ⟨d.1⟩, d.2)
  | .LoadConst =>
    let d := rng.genRangeNat 0 8
    let v := d.2.genRange (-100) 100
    (Instruction.load_const ⟨d.1⟩ (.Int v.1), v.2)
  | .GetEnergy | .GetAge | .Eat =>
    let d := rng.genRangeNat 0 8
    ((Instruction.new opcode).with_dest ⟨d.1⟩, d.2)
  | .Move =>
    let a := rng.genRangeIncl (-1) 1
    let b := a.2.genRangeIncl (-1) 1
    (((Instruction.new opcode).with_operand (.Immediate (.Int a.1))).with_operand
      (.Immediate (.Int b.1)), b.2)
  | .SenseEnv =>
    let a := rng.genRangeIncl (-1) 1
    let b := a.2.genRangeIncl (-1) 1
    let d := b.2.genRangeNat 0 8
    ((((Instruction.new opcode).with_operand (.Immediate (.Int a.1))).with_operand
      (.Immediate (.Int b.1))).with_dest ⟨d.1⟩, d.2)
  | .SenseNeighbor =>
    let a := rng.genRange 0 8
    let d := a.2.genRangeNat 0 8
    (((Instruction.new opcode).with_operand (.Immediate (.Int a.1))).with_dest ⟨d.1⟩, d.2)
  | .Attack =>
    let a := rng.genRangeIncl (-1) 1
    let b := a.2.genRangeIncl (-1) 1
    let d := b.2.genRangeNat 0 8
    ((((Instruction.new opcode).with_operand (.Immediate (.Int a.1))).with_operand
      (.Immediate (.Int b.1))).with_dest ⟨d.1⟩, d.2)
  | .Reproduce =>
    let d := rng.genRangeNat 0 8
    ((Instruction.new opcode).with_dest ⟨d.1⟩, d.2)
  | .EmitSignal =>
    let a := rng.genRange 0 10
    let b := a.2.genRange (-100) 100
    (((Instruction.new opcode).with_operand (.Immediate (.Int a.1))).with_operand
      (.Immediate (.Int b.1)), b.2)
  | _ => (Instruction.new opcode, rng)

/-- `Mutator::generate_random_instruction`: draw an opcode from
`randOpcodes`, then build an instruction of the matching shape. -/
def generate_random_instruction (_m : Mutator) (rng : Rng) : Instruction × Rng :=
  let k := rng.genRangeNat 0 randOpcodes.length
  generate_random_instruction_go (randOpcodes.getD k.1 .Add) k.2

/-- `Mutator::mutate_block`'s `while i < len` loop over a mutable vector,
rendered as a structural recursion: `acc` holds the first `i` elements
(already processed), the list argument the rest.  At each position:
point-mutate with probability `point_mutation_rate`; then delete
(`remove(i); continue`) with probability `deletion_rate` if the whole
block still has more than one instruction; then insert a fresh random
instruction at `i` (advancing past it and the current instruction) with
probability `insertion_rate` if under the instruction cap.  The length
tests use the full current length `acc.length + (inst :: rest).length`,
exactly as the source reads `block.instructions.len()`. -/
def mutate_block_go (m : Mutator) (acc : List Instruction) :
    List Instruction → Rng → List Instruction × Rng
  | [], rng => (acc, rng)
  | inst :: rest, rng =>
    let p1 := rng.genF32
    let pm :=
      if p1.1 < m.config.point_mutation_rate then m.point_mutate inst p1.2 else (inst, p1.2)
    let p2 := pm.2.genF32
    if p2.1 < m.config.deletion_rate ∧ 1 < acc.length + (pm.1 :: rest).length then
      m.mutate_block_go acc rest p2.2
    else
      let p3 := p2.2.genF32
      if p3.1 < m.config.insertion_rate ∧
          acc.length + (pm.1 :: rest).length < m.config.max_instructions_per_function then
        let gi := m.generate_random_instruction p3.2
        m.mutate_block_go (acc ++ [gi.1, pm.1]) rest gi.2
      else m.mutate_block_go (acc ++ [pm.1]) rest p3.2

/-- `Mutator::mutate_block`. -/
def mutate_block (m : Mutator) (block : BasicBlock) (rng : Rng) : BasicBlock × Rng :=
  let l := m.mutate_block_go [] block.instructions rng
  (⟨l.1⟩, l.2)

/-- The `for block in &mut func.blocks` loop of `mutate_function`. -/
def mutate_blocks (m : Mutator) : List BasicBlock → Rng → List BasicBlock × Rng
  | [], rng => ([], rng)
  | b :: rest, rng =>
    let b1 := m.mutate_block b rng
    let bs := m.mutate_blocks rest b1.2
    (b1.1 :: bs.1, bs.2)

/-- `Mutator::mutate_function`: mutate every block; maybe duplicate a
random block (append, `Function::add_block`); maybe add a local (the
probability `0.01` is a source literal). -/
def mutate_function (m : Mutator) (func : Function) (rng : Rng) : Function × Rng :=
  let bs := m.mutate_blocks func.blocks rng
  let func1 := { func with blocks := bs.1 }
  let p1 := bs.2.genF32
  let fd :=
    if p1.1 < m.config.block_duplication_rate ∧ ¬ func1.blocks.isEmpty then
      let j := p1.2.genRangeNat 0 func1.blocks.length
      (({ func1 with blocks := func1.blocks ++ [func1.blocks.getD j.1 BasicBlock.new] }
        : Function), j.2)
    else (func1, p1.2)
  let p2 := fd.2.genF32
  if p2.1 < mkRat 1 100 ∧ fd.1.num_locals < m.config.max_locals then
    ({ fd.1 with num_locals := fd.1.num_locals + 1 }, p2.2)
  else (fd.1, p2.2)

/-- The instruction-generation loop of `generate_random_function`. -/
def gen_insts (m : Mutator) : ℕ → Rng → List Instruction × Rng
  | 0, rng => ([], rng)
  | n + 1, rng =>
    let i := m.generate_random_instruction rng
    let rest := m.gen_insts n i.2
    (i.1 :: rest.1, rest.2)

/-- `Mutator::generate_random_function`: a fresh function with
`gen_range(3..20)` random instructions followed by
`Instruction::return_value(Register(0))` in its single block. -/
def generate_random_function (m : Mutator) (rng : Rng) : Function × Rng :=
  let nm := rng.genU32
  let func := Function.new ("func_" ++ toString nm.1) 0 .Int
  let cnt := nm.2.genRangeNat 3 20
  let insts := m.gen_insts cnt.1 cnt.2
  ({ func with blocks := [⟨insts.1 ++ [Instruction.return_value ⟨0⟩]⟩] }, insts.2)

/-- The `for func in &mut program.functions` loop of `mutate`. -/
def mutate_functions (m : Mutator) : List Function → Rng → List Function × Rng
  | [], rng => ([], rng)
  | f :: rest, rng =>
    let f1 := m.mutate_function f rng
    let fs := m.mutate_functions rest f1.2
    (f1.1 :: fs.1, fs.2)

/-- `Mutator::mutate`: mutate every function; maybe append a freshly
generated function (`Program::add_function`). -/
def mutate (m : Mutator) (program : Program) (rng : Rng) : Program × Rng :=
  let fs := m.mutate_functions program.functions rng
  let program1 := { program with functions := fs.1 }
  let p := fs.2.genF32
  if p.1 < m.config.function_addition_rate ∧
      program1.functions.length < m.config.max_functions then
    let nf := m.generate_random_function p.2
    ({ program1 with functions := program1.functions ++ [nf.1] }, nf.2)
  else (program1, p.2)

end Mutator

/-- Operand-count validity of one instruction with respect to the
`num_operands` arity table. -/
def arityOk (inst : Instruction) : Bool :=
  inst.operands.length == inst.opcode.num_operands

/-- The weaker shape invariant the mutator actually preserves:
`LoadConst` and `Return` instructions may carry one operand although the
arity table assigns them `0` (the builders `load_const`/`return_value`
and the random generator produce exactly that shape). -/
def arityOkAmended (inst : Instruction) : Bool :=
  arityOk inst ||
    ((inst.opcode == .LoadConst || inst.opcode == .Return) && inst.operands.length == 1)

/-- All instructions of a program satisfy the strict arity table. -/
def programArityOk (p : Program) : Bool :=
  p.functions.all (fun f => f.blocks.all (fun b => b.instructions.all arityOk))

/-- All instructions of a program satisfy the amended shape invariant. -/
def programArityOkAmended (p : Program) : Bool :=
  p.functions.all (fun f => f.blocks.all (fun b => b.instructions.all arityOkAmended))

/-! ## `evo-core/src/config.rs` -/

/-- `WorldConfig` (`f32` densities/rates as exact rationals). -/
structure WorldConfig where
  width : ℤ
  height : ℤ
  resource_density : ℚ
  max_resource_per_tile : ℤ
  resource_regen_rate : ℚ
  obstacle_density : ℚ
  hazard_density : ℚ
  hazard_damage : ℤ
deriving Repr

/-- `EnergyConfig`. -/
structure EnergyConfig where
  initial_energy : ℤ
  basal_cost : ℤ
  instruction_cost_per_k : ℤ
  move_cost : ℤ
  attack_cost : ℤ
  reproduce_cost : ℤ
  eat_efficiency : ℚ
  min_reproduce_energy : ℤ
deriving Repr

/-- `DynamicRules` (`custom_params`, unused by the simulation engine, is
omitted). -/
structure DynamicRules where
  allow_combat : Bool
  allow_reproduction : Bool
  mutation_rate : ℚ
  max_population : ℕ
deriving Repr

/-- `JobConfig` (`exec_config` only parameterises the external WASM
runtime and is omitted). -/
structure JobConfig where
  num_ticks : ℕ
  seed : ℕ
  world_config : WorldConfig
  energy_config : EnergyConfig
  dynamic_rules : DynamicRules
deriving Repr

/-- `EnergyConfig::default()` (source literals; `1.5` is exact in `f32`). -/
def EnergyConfig.default : EnergyConfig := ⟨1500, 1, 1, 3, 10, 300, mkRat 3 2, 400⟩

/-- `DynamicRules::default()`. -/
def DynamicRules.default : DynamicRules := ⟨true, true, mkRat 1 100, 1000⟩

/-! ## `evo-core/src/fitness.rs` -/

/-- `FitnessMetrics` (the unused `custom` map is omitted; the `u32`/`u64`
counters are naturals, the `i64` totals integers). -/
structure FitnessMetrics where
  lifetime : ℕ
  net_energy : ℤ
  offspring_count : ℕ
  tiles_explored : ℕ
  kills : ℕ
  times_eaten : ℕ
  damage_dealt : ℤ
  damage_received : ℤ
deriving DecidableEq, Repr

/-- `FitnessMetrics::new` (= `default`). -/
def FitnessMetrics.new : FitnessMetrics := ⟨0, 0, 0, 0, 0, 0, 0, 0⟩

/-! ## OS entropy and organism identifiers -/

/-- Operating-system randomness: the entropy consumed by `Uuid::new_v4`,
modelled as a stream of naturals *independent of the seeded RNG*. -/
structure Entropy where
  stream : ℕ → ℕ
  idx : ℕ

/-- Draw the next entropy value and advance. -/
def Entropy.next (e : Entropy) : ℕ × Entropy := (e.stream e.idx, ⟨e.stream, e.idx + 1⟩)

/-- `OrganismId::new`: `Uuid::new_v4()` draws a fresh 128-bit token from
the operating system's randomness — **not** from the simulation's seeded
`ChaCha8Rng`.  Modelled as consuming the next OS-entropy value (ids are
naturals standing in for the 128-bit tokens). -/
def OrganismId.new (e : Entropy) : ℕ × Entropy := e.next

/-! ## `evo-world/src/organism.rs` -/

/-- `Organism`.  The `instance : Option<OrganismInstance>` WASM handle is
external and omitted.  The `birth_tick` field is read and written
throughout `simulation.rs` but absent from the `organism.rs` in `src/`;
it is modelled from the spec (§3 organism record: `birth_tick: u64`).
`visited_tiles` is a `HashSet`, modelled as a duplicate-free list. -/
structure Organism where
  id : ℕ
  lineage_id : ℕ
  position : Position
  energy : ℤ
  age : ℕ
  birth_tick : ℕ
  genome : Program
  metrics : FitnessMetrics
  visited_tiles : List Position
deriving DecidableEq, Repr

namespace Organism

/-- Modelled from the spec: `Organism::new_with_birth_tick` is called by
`simulation.rs` but missing from `src/crates/evo-world/src/organism.rs`
(which only defines `Organism::new`, without `birth_tick`).  Following
`Organism::new` and the spec (offspring `birth_tick = current_tick`), it
creates an organism with a fresh OS-random id, the spawn position already
in `visited_tiles`, age 0, fresh metrics, and the given `birth_tick`. -/
def new_with_birth_tick (lineage_id : ℕ) (position : Position) (energy : ℤ)
    (genome : Program) (birth_tick : ℕ) (e : Entropy) : Organism × Entropy :=
  let r := OrganismId.new e
  (⟨r.1, lineage_id, position, energy, 0, birth_tick, genome, FitnessMetrics.new,
    [position]⟩, r.2)

/-- `Organism::is_alive`: `energy > 0`. -/
def is_alive (o : Organism) : Bool := decide (0 < o.energy)

/-- `Organism::add_energy`: `self.energy += amount` (`i32` addition). -/
def add_energy (o : Organism) (amount : ℤ) : Organism :=
  { o with energy := add32 o.energy amount }

/-- `Organism::consume_energy`: if `energy >= amount`, subtract and
return `true`; otherwise zero the energy and return `false`.  (The
subtraction is `i32`; it cannot overflow for `amount ≥ 0`.) -/
def consume_energy (o : Organism) (amount : ℤ) : Organism × Bool :=
  if amount ≤ o.energy then ({ o with energy := wrap32 (o.energy - amount) }, true)
  else ({ o with energy := 0 }, false)

/-- `Organism::move_to`: set the position, insert it into the visited
set, refresh `tiles_explored`. -/
def move_to (o : Organism) (new_position : Position) : Organism :=
  let visited := if new_position ∈ o.visited_tiles then o.visited_tiles
    else new_position :: o.visited_tiles
  { o with position := new_position, visited_tiles := visited,
           metrics := { o.metrics with tiles_explored := visited.length } }

/-- `Organism::record_kill`. -/
def record_kill (o : Organism) : Organism :=
  { o with metrics := { o.metrics with kills := o.metrics.kills + 1 } }

/-- `Organism::record_damage_dealt`. -/
def record_damage_dealt (o : Organism) (amount : ℤ) : Organism :=
  { o with metrics := { o.metrics with damage_dealt := o.metrics.damage_dealt + amount } }

/-- `Organism::record_damage_received`. -/
def record_damage_received (o : Organism) (amount : ℤ) : Organism :=
  { o with metrics := { o.metrics with
      damage_received := o.metrics.damage_received + amount } }

/-- `Organism::record_offspring`. -/
def record_offspring (o : Organism) : Organism :=
  { o with metrics := { o.metrics with offspring_count := o.metrics.offspring_count + 1 } }

/-- `Organism::finalize_metrics`: `net_energy = energy - initial_energy`
(as `i64`). -/
def finalize_metrics (o : Organism) (initial_energy : ℤ) : Organism :=
  { o with metrics := { o.metrics with net_energy := o.energy - initial_energy } }

end Organism

/-- `OrganismData` (the serialisable organism view). -/
structure OrganismData where
  id : ℕ
  lineage_id : ℕ
  position : Position
  energy : ℤ
  age : ℕ
  genome : Program
  metrics : FitnessMetrics
deriving DecidableEq, Repr

/-- `OrganismData::from(&Organism)`. -/
def OrganismData.from_organism (org : Organism) : OrganismData :=
  ⟨org.id, org.lineage_id, org.position, org.energy, org.age, org.genome, org.metrics⟩

/-! ## `evo-runtime/src/context.rs`: actions -/

/-- `Action` (the deferred effects an organism enqueues during `step`). -/
inductive Action where
  | None
  | Move (dx dy : ℤ)
  | Eat
  | Attack (target_slot amount : ℤ)
  | Reproduce
  | EmitSignal (channel value : ℤ)
deriving DecidableEq, Repr

/-! ## `HashMap` model -/

/-- `HashMap::get`, on the association-list model. -/
def alookup {α β : Type _} [DecidableEq α] (k : α) : List (α × β) → Option β
  | [] => none
  | (k2, v) :: rest => if k2 = k then some v else alookup k rest

/-- `HashMap::remove` (drops the key's entry). -/
def aerase {α β : Type _} [DecidableEq α] (k : α) (l : List (α × β)) : List (α × β) :=
  l.filter (fun pr => decide (pr.1 ≠ k))

/-- `HashMap::insert` (replaces any existing entry for the key). -/
def ainsert {α β : Type _} [DecidableEq α] (k : α) (v : β) (l : List (α × β)) :
    List (α × β) :=
  (k, v) :: aerase k l

/-- `if let Some(x) = map.get_mut(&k) { mutate x }`: update the entry in
place when present, otherwise do nothing. -/
def aupdate {α β : Type _} [DecidableEq α] (k : α) (f : β → β) (l : List (α × β)) :
    List (α × β) :=
  l.map (fun pr => if pr.1 = k then (pr.1, f pr.2) else pr)

/-! ## `evo-world/src/simulation.rs` -/

/-- The `Simulation` state.  The `runtime` and `compiler` handles drive
the external WASM engine and are omitted; `organisms` and
`organism_positions` are `HashMap`s, modelled as association lists; the
OS-entropy stream feeds `Uuid::new_v4` id creation. -/
structure Simulation where
  grid : Grid
  organisms : List (ℕ × Organism)
  organism_positions : List (Position × ℕ)
  mutator : Mutator
  config : JobConfig
  rng : Rng
  entropy : Entropy
  tick : ℕ
  reproduction_attempts : ℕ
  reproduction_successes : ℕ
  total_offspring_born : ℕ

namespace Simulation

/-- The success branch of the `Reproduce` spawn loop (lines 586-677):
spawn the offspring on the wrapped neighbor tile.  The offspring energy
is `((initial_energy / 2) as f32 * buff) as i32` — the cast and the
multiply round to nearest as `f32` operations — where `buff`
is `5.0` for parents with `birth_tick > 1` and `1.0` otherwise; such
parents additionally receive a flat `+1000` energy bonus (applied before
the offspring is inserted). -/
def reproduce_spawn_success (st : Simulation) (id : ℕ) (parent_birth_tick : ℕ)
    (parent_lineage : ℕ) (offspring_genome : Program) (nb : Position × Tile) :
    Simulation :=
  let wrapped := nb.1.wrap st.grid.width st.grid.height
  let base_offspring_energy := st.config.energy_config.initial_energy.tdiv 2
  let buff : ℚ := if 1 < parent_birth_tick then 5 else 1
  let offspring_energy := f32toI32 (f32mul (i32toF32 base_offspring_energy) buff)
  let ospawn := Organism.new_with_birth_tick parent_lineage wrapped offspring_energy
    offspring_genome st.tick st.entropy
  let st1 := { st with entropy := ospawn.2 }
  let st2 := if 1 < parent_birth_tick then
      { st1 with organisms := aupdate id (fun p => p.add_energy 1000) st1.organisms }
    else st1
  { st2 with
    organism_positions := ainsert wrapped ospawn.1.id st2.organism_positions,
    organisms := ainsert ospawn.1.id ospawn.1 st2.organisms,
    reproduction_successes := st2.reproduction_successes + 1,
    total_offspring_born := st2.total_offspring_born + 1 }

/-- The loop condition of the `Reproduce` spawn loop: a non-obstacle
neighbor tile whose wrapped position holds no organism. -/
def reproduce_suitable (st : Simulation) (pr : Position × Tile) : Bool :=
  decide (pr.2.tile_type ≠ TileType.Obstacle) &&
    (alookup (pr.1.wrap st.grid.width st.grid.height) st.organism_positions).isNone

/-- The `for (neighbor_pos, tile) in neighbors` loop of the `Reproduce`
arm: the first suitable neighbor (in `Grid::neighbors` order) receives
the offspring; if none qualifies the state is returned with only the
failure recorded. -/
def reproduce_spawn_loop (st : Simulation) (id : ℕ) (parent_birth_tick : ℕ)
    (parent_lineage : ℕ) (offspring_genome : Program) :
    List (Position × Tile) → Simulation
  | [] => st
  | nb :: rest =>
    if reproduce_suitable st nb then
      reproduce_spawn_success st id parent_birth_tick parent_lineage offspring_genome nb
    else reproduce_spawn_loop st id parent_birth_tick parent_lineage offspring_genome rest

/-- The `Reproduce` arm of `apply_action` (lines 507-699): record the
attempt; refuse when the snapshot energy is below `reproduce_cost` or
`min_reproduce_energy`, or the population is at `max_population`; then
charge the parent `reproduce_cost` and record the offspring, mutate a
clone of its genome (consuming the seeded RNG), and run the spawn loop
over the parent's neighbors. -/
def apply_reproduce (st : Simulation) (id : ℕ) (energy : ℤ) : Simulation :=
  let st1 := { st with reproduction_attempts := st.reproduction_attempts + 1 }
  if energy < st1.config.energy_config.reproduce_cost ∨
      energy < st1.config.energy_config.min_reproduce_energy then st1
  else if st1.config.dynamic_rules.max_population ≤ st1.organisms.length then st1
  else
    match alookup id st1.organisms with
    | none => st1
    | some parent =>
      let st2 := { st1 with organisms := (aupdate id (fun p =>
          ((p.consume_energy st1.config.energy_config.reproduce_cost).1).record_offspring)
        st1.organisms) }
      let mg := st2.mutator.mutate parent.genome st2.rng
      let st3 := { st2 with rng := mg.2 }
      reproduce_spawn_loop st3 id parent.birth_tick parent.lineage_id mg.1
        (st3.grid.neighbors parent.position 1)

/-- `apply_action` (lines 412-711).  `pos` and `energy` are the snapshots
taken in `process_organism` *before* the action loop; they are stale for
every action after the first.  Match guards (`if allow_combat`,
`if allow_reproduction`) fall through to the no-op `_` arm when false. -/
def apply_action (st : Simulation) (id : ℕ) (action : Action) (pos : Position)
    (energy : ℤ) : Simulation :=
  match action with
  | .Move dx dy =>
    if energy < st.config.energy_config.move_cost then st
    else
      let new_pos := (pos.add dx dy).wrap st.grid.width st.grid.height
      if (alookup new_pos st.organism_positions).isSome then st
      else if (st.grid.get new_pos).tile_type = .Obstacle then st
      else
        { st with
          organism_positions := ainsert new_pos id (aerase pos st.organism_positions),
          organisms := (aupdate id (fun o =>
            ((o.move_to new_pos).consume_energy st.config.energy_config.move_cost).1)
            st.organisms) }
  | .Eat =>
    match alookup id st.organisms with
    | none => st
    | some organism =>
      let tile := st.grid.get organism.position
      if tile.tile_type = .Resource ∧ 0 < tile.resource_amount then
        let consumed := imin tile.resource_amount 100
        let energy_gained :=
          f32toI32 (qmul (consumed : ℚ) st.config.energy_config.eat_efficiency)
        { st with
          grid := (st.grid.set organism.position
            { tile with resource_amount := tile.resource_amount - consumed }),
          organisms := (aupdate id (fun o =>
            let o1 := o.add_energy energy_gained
            { o1 with metrics :=
                { o1.metrics with times_eaten := o1.metrics.times_eaten + 1 } })
            st.organisms) }
      else st
  | .Attack _ amount =>
    if st.config.dynamic_rules.allow_combat then
      if energy < st.config.energy_config.attack_cost then st
      else
        match (st.grid.neighbors pos 1).head? with
        | none => st
        | some nb =>
          match alookup nb.1 st.organism_positions with
          | none => st
          | some target_id =>
            let target_died := match alookup target_id st.organisms with
              | some target => decide ((target.consume_energy amount).1.energy ≤ 0)
              | none => false
            let st1 := { st with organisms := (aupdate target_id (fun t =>
                ((t.record_damage_received amount).consume_energy amount).1)
              st.organisms) }
            { st1 with organisms := (aupdate id (fun a =>
                let a1 := ((a.consume_energy st.config.energy_config.attack_cost).1
                  ).record_damage_dealt amount
                if target_died then a1.record_kill else a1) st1.organisms) }
    else st
  | .Reproduce =>
    if st.config.dynamic_rules.allow_reproduction then st.apply_reproduce id energy
    else st
  | .EmitSignal _ _ => st
  | .None => st

/-- Lines 401-407 of `process_organism`: apply the enqueued actions in
order, each with the position and energy snapshots taken *once, before
the loop*.  The WASM execution producing the action list (and the
basal/instruction-cost charges before it) is external; the list is a
parameter. -/
def apply_actions (st : Simulation) (id : ℕ) (actions : List Action) : Simulation :=
  match alookup id st.organisms with
  | none => st
  | some organism =>
    actions.foldl (fun s a => s.apply_action id a organism.position organism.energy) st

/-- `apply_hazards`: every organism whose (position-table) tile is a
`Hazard` is charged `hazard_damage`. -/
def apply_hazards (st : Simulation) : Simulation :=
  { st with organisms := (st.organism_positions.foldl (fun orgs pr =>
      if (st.grid.get pr.1).tile_type = .Hazard then
        aupdate pr.2 (fun o => (o.consume_energy st.config.world_config.hazard_damage).1)
          orgs
      else orgs) st.organisms) }

/-- `remove_dead_organisms`: remove every organism with `energy ≤ 0` from
the organism table and drop its (stored-position) entry from the
position table. -/
def remove_dead_organisms (st : Simulation) : Simulation :=
  let dead := (st.organisms.filter (fun pr => !pr.2.is_alive)).map (fun pr => pr.1)
  dead.foldl (fun s did =>
    match alookup did s.organisms with
    | none => s
    | some organism =>
      { s with organisms := aerase did s.organisms,
               organism_positions := aerase organism.position s.organism_positions }) st

/-- The tail of one `step()` for a single live organism: apply its
enqueued actions (with the pre-loop snapshots), then the hazard pass,
then reap the dead.  Resource regrowth and the (single-element) shuffle
do not affect the claims evaluated on this path. -/
def step_actions_phase (st : Simulation) (id : ℕ) (actions : List Action) : Simulation :=
  ((st.apply_actions id actions).apply_hazards).remove_dead_organisms

end Simulation

/-- `SimulationResult`. -/
structure SimulationResult where
  lineage_stats : List (ℕ × List FitnessMetrics)
  survivors : List OrganismData
  total_ticks : ℕ
deriving DecidableEq, Repr

namespace Simulation

/-- `collect_results`: finalize every organism's metrics, group the
metrics by lineage, and emit the survivors. -/
def collect_results (st : Simulation) : SimulationResult :=
  let finalized := st.organisms.map (fun pr =>
    (pr.1, pr.2.finalize_metrics st.config.energy_config.initial_energy))
  { lineage_stats := (finalized.foldl (fun acc pr =>
      match alookup pr.2.lineage_id acc with
      | some _ => aupdate pr.2.lineage_id (fun l2 => l2 ++ [pr.2.metrics]) acc
      | none => acc ++ [(pr.2.lineage_id, [pr.2.metrics])]) []),
    survivors := finalized.map (fun pr => OrganismData.from_organism pr.2),
    total_ticks := st.tick }

/-- `run()` for `num_ticks = 0`: the tick loop body never executes (it
would drive the external WASM runtime) and the result is
`collect_results()`. -/
def run_zero (st : Simulation) : SimulationResult := st.collect_results

end Simulation

/-- The per-cell loop of `Grid::from_config`: one `f32` roll per cell,
cumulative thresholds obstacle < obstacle+hazard <
obstacle+hazard+resource. -/
def from_config_go (config : WorldConfig) : List Position → Grid → Rng → Grid × Rng
  | [], g, rng => (g, rng)
  | pos :: rest, g, rng =>
    let roll := rng.genF32
    let g1 :=
      if roll.1 < config.obstacle_density then g.set pos Tile.obstacle
      else if roll.1 < qadd config.obstacle_density config.hazard_density then
        g.set pos Tile.hazard
      else if roll.1 < qadd (qadd config.obstacle_density config.hazard_density)
          config.resource_density then
        g.set pos (Tile.resource config.max_resource_per_tile config.max_resource_per_tile)
      else g
    from_config_go config rest g1 roll.2

/-- `Grid::from_config`: iterate cells with `y` outer, `x` inner. -/
def Grid.from_config (config : WorldConfig) (rng : Rng) : Grid × Rng :=
  let cells := (Grid.intRangeIncl 0 (config.height - 1)).flatMap (fun y =>
    (Grid.intRangeIncl 0 (config.width - 1)).map (fun x => Position.new x y))
  from_config_go config cells (Grid.new config.width config.height) rng

namespace Simulation

/-- The 100-attempt loop of `spawn_organism`: draw `x` then `y` from the
seeded RNG; if the cell is unoccupied and not an obstacle, create the
organism (`birth_tick = self.tick`; the id comes from OS entropy). -/
def spawn_organism_go (st : Simulation) (lineage_id : ℕ) (genome : Program) :
    ℕ → Except String Simulation
  | 0 => .error "Failed to find spawn position"
  | n + 1 =>
    let gx := st.rng.genRange 0 st.grid.width
    let gy := gx.2.genRange 0 st.grid.height
    let pos := Position.new gx.1 gy.1
    let st1 := { st with rng := gy.2 }
    if (alookup pos st1.organism_positions).isNone then
      if (st1.grid.get pos).tile_type ≠ .Obstacle then
        let ospawn := (Organism.new_with_birth_tick lineage_id pos
          st1.config.energy_config.initial_energy genome st1.tick st1.entropy)
        .ok { st1 with
          entropy := ospawn.2,
          organism_positions := ainsert pos ospawn.1.id st1.organism_positions,
          organisms := ainsert ospawn.1.id ospawn.1 st1.organisms }
      else spawn_organism_go st1 lineage_id genome n
    else spawn_organism_go st1 lineage_id genome n

/-- `spawn_organism` (up to 100 attempts, then an `Other` error). -/
def spawn_organism (st : Simulation) (lineage_id : ℕ) (genome : Program) :
    Except String Simulation :=
  spawn_organism_go st lineage_id genome 100

/-- `Simulation::new`: seed the `ChaCha8Rng` from `config.seed` — the
keystream determined by the seed is the `rngStream` parameter, so two
runs with the same seed pass the same stream — build the grid, and spawn
one organism per seed genome.  The OS entropy consumed by
`Uuid::new_v4` enters separately through `entropy`; it is *not* a
function of `config.seed`. -/
def new (config : JobConfig) (genomes : List (ℕ × Program)) (rngStream : ℕ → ℕ)
    (entropy : Entropy) : Except String Simulation :=
  let gr := Grid.from_config config.world_config ⟨rngStream, 0⟩
  let sim0 : Simulation :=
    ⟨gr.1, [], [], ⟨MutationConfig.default⟩, config, gr.2, entropy, 0, 0, 0, 0⟩
  genomes.foldl (fun acc pr => match acc with
    | .error e => .error e
    | .ok sim => sim.spawn_organism pr.1 pr.2) (.ok sim0)

end Simulation

/-! ## Concrete fixtures (inputs for counterexamples and witnesses) -/

/-- A minimal valid program: one function `init` whose single block holds
one `Return` (zero operands, matching the arity table). -/
def initReturnProgram : Program :=
  ⟨[⟨"init", 1, 0, [⟨[Instruction.return_void]⟩], .Void⟩], 256, 1⟩

/-- A program with well-formed `init` and `step` functions. -/
def initStepProgram : Program :=
  ⟨[⟨"init", 1, 0, [⟨[Instruction.return_void]⟩], .Void⟩,
    ⟨"step", 1, 0, [⟨[Instruction.return_value ⟨0⟩]⟩], .Int⟩], 256, 1⟩

/-- `initStepProgram` plus a third function with zero basic blocks. -/
def zeroBlockProgram : Program :=
  ⟨[⟨"init", 1, 0, [⟨[Instruction.return_void]⟩], .Void⟩,
    ⟨"step", 1, 0, [⟨[Instruction.return_value ⟨0⟩]⟩], .Int⟩,
    ⟨"f", 0, 0, [], .Int⟩], 256, 1⟩

/-- A concrete RNG stream under which `mutate` on `initReturnProgram`
inserts a `LoadConst` instruction and appends a fresh random function:
draws 0/1/6/7 are `0.5` (skipping point mutation, deletion, block
duplication and the local bump), draw 2 is `0` (triggering insertion),
draw 3 selects opcode index 19 (`LoadConst`), draw 8 is `0` (triggering
function addition), and draws 11/13/15 select opcode index 20
(`GetEnergy`) for the three instructions of the new function. -/
def c6Rng : Rng :=
  ⟨fun n =>
    if n = 3 then 19 else if n = 11 ∨ n = 13 ∨ n = 15 then 20
    else if n = 0 ∨ n = 1 ∨ n = 6 ∨ n = 7 then 2 ^ 23 else 0, 0⟩

/-- The result of that mutation. -/
def c6Mutated : Program := ((Mutator.mk MutationConfig.default).mutate initReturnProgram c6Rng).1

/-- A small world config: 4 by 4, no obstacles, hazards or resources. -/
def smallWorld : WorldConfig := ⟨4, 4, 0, 1000, mkRat 15 100, 0, 0, 10⟩

/-- A job config over `smallWorld` with the default energy config and
dynamic rules, `num_ticks = 0`, seed 42. -/
def smallJob : JobConfig := ⟨0, 42, smallWorld, EnergyConfig.default, DynamicRules.default⟩

/-- An all-empty 4-by-4 grid. -/
def emptyGrid4 : Grid := Grid.new 4 4

/-- An RNG whose `f32` draws are all `0.5` (no mutation fires). -/
def halfRng : Rng := ⟨fun _ => 2 ^ 23, 0⟩

/-- C3 scenario: one organism (id 0) at the origin with 100 energy. -/
def c3Org : Organism :=
  ⟨0, 0, Position.new 0 0, 100, 0, 0, Program.new, FitnessMetrics.new, [Position.new 0 0]⟩

/-- C3 scenario state: `smallJob`, empty 4-by-4 world, `c3Org` alone. -/
def c3State : Simulation :=
  ⟨emptyGrid4, [(0, c3Org)], [(Position.new 0 0, 0)], ⟨MutationConfig.default⟩,
   smallJob, halfRng, ⟨fun _ => 0, 0⟩, 0, 0, 0, 0⟩

/-- C4 scenario: attacker (id 1) at `(1,1)` with 100 energy. -/
def c4Attacker : Organism :=
  ⟨1, 0, Position.new 1 1, 100, 0, 0, Program.new, FitnessMetrics.new, [Position.new 1 1]⟩

/-- C4 scenario: target (id 2) at `(0,0)` = the attacker's first
neighbor in `(dy,dx)` order. -/
def c4Target : Organism :=
  ⟨2, 0, Position.new 0 0, 50, 0, 0, Program.new, FitnessMetrics.new, [Position.new 0 0]⟩

/-- C4 witness state: attacker at `(1,1)`, target at `(0,0)`. -/
def c4State : Simulation :=
  ⟨emptyGrid4, [(1, c4Attacker), (2, c4Target)],
   [(Position.new 1 1, 1), (Position.new 0 0, 2)], ⟨MutationConfig.default⟩,
   smallJob, halfRng, ⟨fun _ => 0, 0⟩, 0, 0, 0, 0⟩

/-- C4 counterexample: a target (id 2) at `(2,1)` — adjacent to the
attacker, but not its *first* neighbor. -/
def c4bTarget : Organism :=
  ⟨2, 0, Position.new 2 1, 50, 0, 0, Program.new, FitnessMetrics.new, [Position.new 2 1]⟩

/-- C4 counterexample state: attacker at `(1,1)`, the only other
organism at `(2,1)`; the first neighbor cell `(0,0)` is empty. -/
def c4bState : Simulation :=
  ⟨emptyGrid4, [(1, c4Attacker), (2, c4bTarget)],
   [(Position.new 1 1, 1), (Position.new 2 1, 2)], ⟨MutationConfig.default⟩,
   smallJob, halfRng, ⟨fun _ => 0, 0⟩, 0, 0, 0, 0⟩

/-- C2 scenario: a parent (id 0) with `birth_tick = 2` and 1000 energy
at `(1,1)`. -/
def c2Parent : Organism :=
  ⟨0, 0, Position.new 1 1, 1000, 0, 2, Program.new, FitnessMetrics.new, [Position.new 1 1]⟩

/-- C2 scenario state: `smallJob` (so `initial_energy = 1500`), empty
4-by-4 world, `c2Parent` alone; OS entropy will hand the offspring
id 99. -/
def c2State : Simulation :=
  ⟨emptyGrid4, [(0, c2Parent)], [(Position.new 1 1, 0)], ⟨MutationConfig.default⟩,
   smallJob, halfRng, ⟨fun _ => 99, 0⟩, 0, 0, 0, 0⟩

/-- C1 scenario: construct a simulation from `smallJob` and one seed
genome, with the all-zero seeded keystream and a constant OS-entropy
stream handing out `idv` as the `Uuid::new_v4` token. -/
def c1New (idv : ℕ) : Except String Simulation :=
  Simulation.new smallJob [(0, Program.new)] (fun _ => 0) ⟨fun _ => idv, 0⟩

/-- The survivor id list of a C1 run (`run()` with `num_ticks = 0`),
`[]` for a failed construction. -/
def c1SurvivorIds (idv : ℕ) : List ℕ :=
  match c1New idv with
  | .error _ => []
  | .ok sim => sim.run_zero.survivors.map OrganismData.id

/-! ## Helper lemmas (machine and rational arithmetic) -/

theorem imax_eq_max (a b : ℤ) : imax a b = max a b := by
  unfold imax; split <;> omega

theorem imin_eq_min (a b : ℤ) : imin a b = min a b := by
  unfold imin; split <;> omega

theorem wrap32_eq_self {n : ℤ} (h₁ : -(2 ^ 31) ≤ n) (h₂ : n < 2 ^ 31) :
    wrap32 n = n := by
  unfold wrap32
  have h : (n + 2 ^ 31) % 2 ^ 32 = n + 2 ^ 31 := Int.emod_eq_of_lt (by omega) (by omega)
  omega

theorem qmul_eq (a b : ℚ) : qmul a b = a * b := by
  unfold qmul
  rw [Rat.mkRat_eq_div]
  push_cast
  have hb : ((a.den : ℚ) * b.den) ≠ 0 := by positivity
  rw [div_eq_iff hb, ← Rat.mul_den_eq_num a, ← Rat.mul_den_eq_num b]
  ring

theorem qadd_eq (a b : ℚ) : qadd a b = a + b := by
  unfold qadd
  rw [Rat.mkRat_eq_div]
  push_cast
  have hb : ((a.den : ℚ) * b.den) ≠ 0 := by positivity
  rw [div_eq_iff hb, ← Rat.mul_den_eq_num a, ← Rat.mul_den_eq_num b]
  ring

theorem qsub_eq (a b : ℚ) : qsub a b = a - b := by
  unfold qsub
  rw [Rat.mkRat_eq_div]
  push_cast
  have hb : ((a.den : ℚ) * b.den) ≠ 0 := by positivity
  rw [div_eq_iff hb, ← Rat.mul_den_eq_num a, ← Rat.mul_den_eq_num b]
  ring

theorem qdiv_eq (a b : ℚ) : qdiv a b = a / b := by
  unfold qdiv
  rcases lt_trichotomy b.num 0 with h | h | h
  · rw [if_pos h, Rat.mkRat_eq_div]
    have hcast : (((-b.num).toNat : ℕ) : ℚ) = -(b.num : ℚ) := by
      exact_mod_cast Int.toNat_of_nonneg (by omega : (0 : ℤ) ≤ -b.num)
    push_cast [hcast]
    have hd : ((a.den : ℚ) * (-(b.num : ℚ))) ≠ 0 := by
      have h1 : ((a.den : ℚ)) ≠ 0 := by positivity
      have h2 : ((b.num : ℚ)) ≠ 0 := by exact_mod_cast (by omega : b.num ≠ 0)
      simp [h1, h2]
    have hb0 : b ≠ 0 := fun hb => by simp [hb] at h
    rw [div_eq_div_iff hd (by simpa using hb0), ← Rat.mul_den_eq_num a,
      ← Rat.mul_den_eq_num b]
    ring
  · have hb0 : b = 0 := Rat.num_eq_zero.mp h
    rw [if_neg (by omega), h]
    simp [hb0, Rat.mkRat_eq_div]
  · rw [if_neg (by omega), Rat.mkRat_eq_div]
    have hcast : ((b.num.toNat : ℕ) : ℚ) = (b.num : ℚ) := by
      exact_mod_cast Int.toNat_of_nonneg (by omega : (0 : ℤ) ≤ b.num)
    push_cast [hcast]
    have hd : ((a.den : ℚ) * (b.num : ℚ)) ≠ 0 := by
      have h1 : ((a.den : ℚ)) ≠ 0 := by positivity
      have h2 : ((b.num : ℚ)) ≠ 0 := by exact_mod_cast (by omega : b.num ≠ 0)
      simp [h1, h2]
    have hb0 : b ≠ 0 := fun hb => by simp [hb] at h
    rw [div_eq_div_iff hd (by simpa using hb0), ← Rat.mul_den_eq_num a,
      ← Rat.mul_den_eq_num b]
    ring

theorem ratTrunc_eq_floor {q : ℚ} (h : 0 ≤ q) : ratTrunc q = ⌊q⌋ := by
  unfold ratTrunc
  rw [Rat.floor_def]
  exact Int.tdiv_eq_ediv (Rat.num_nonneg.mpr h) (by positivity)

theorem ratTrunc_le {q : ℚ} (h : 0 ≤ q) : (ratTrunc q : ℚ) ≤ q := by
  rw [ratTrunc_eq_floor h]
  exact Int.floor_le q

theorem ratTrunc_nonneg {q : ℚ} (h : 0 ≤ q) : 0 ≤ ratTrunc q := by
  rw [ratTrunc_eq_floor h]
  exact Int.floor_nonneg.mpr h

theorem f32toI32_le (q : ℚ) : f32toI32 q ≤ 2 ^ 31 - 1 := by
  unfold f32toI32 imax imin
  split_ifs <;> omega

theorem f32toI32_ge (q : ℚ) : -(2 ^ 31) ≤ f32toI32 q := by
  unfold f32toI32 imax imin
  split_ifs <;> omega

theorem ratTrunc_ge_of_f32toI32_ge {q : ℚ} {c : ℤ} (hc : -(2 ^ 31) < c)
    (h : c ≤ f32toI32 q) : c ≤ ratTrunc q := by
  unfold f32toI32 imax imin at h
  split_ifs at h <;> omega

theorem f32toI32_le_ratTrunc {q : ℚ} (h : -(2 ^ 31) ≤ ratTrunc q) :
    f32toI32 q ≤ ratTrunc q := by
  unfold f32toI32 imax imin
  split_ifs <;> omega

/-! ## IEEE-754 `binary32` rounding lemmas -/

theorem zpow2_eq (z : ℤ) : zpow2 z = (2 : ℚ) ^ z := by
  by_cases h : 0 ≤ z
  · rw [zpow2, if_pos h, show z = (z.toNat : ℤ) from (Int.toNat_of_nonneg h).symm,
      zpow_natCast]
    push_cast
    rfl
  · rw [zpow2, if_neg h, Rat.mkRat_eq_div]
    have hz : ((2 : ℚ)) ^ z = (((2 ^ (-z).toNat : ℕ) : ℚ))⁻¹ := by
      set k := (-z).toNat with hk
      rw [show z = -(k : ℤ) by omega, zpow_neg, zpow_natCast]
      congr 1
      push_cast
      rfl
    rw [hz]
    push_cast
    rw [one_div]

theorem zpow2_pos (z : ℤ) : 0 < zpow2 z := by
  rw [zpow2_eq]
  positivity

theorem zpow2_mul_zpow2 (a b : ℤ) : zpow2 a * zpow2 b = zpow2 (a + b) := by
  rw [zpow2_eq, zpow2_eq, zpow2_eq, ← zpow_add₀ (two_ne_zero)]

theorem zpow2_le_zpow2 {a b : ℤ} (h : a ≤ b) : zpow2 a ≤ zpow2 b := by
  rw [zpow2_eq, zpow2_eq]
  exact zpow_le_zpow_right₀ one_le_two h

theorem zpow2_lt_zpow2 {a b : ℤ} (h : a < b) : zpow2 a < zpow2 b := by
  rw [zpow2_eq, zpow2_eq]
  exact zpow_lt_zpow_right₀ one_lt_two h

theorem zpow2_zero : zpow2 0 = 1 := by decide

theorem ratTrunc_intCast (m : ℤ) : ratTrunc ((m : ℤ) : ℚ) = m := by
  unfold ratTrunc
  rw [Rat.num_intCast, Rat.den_intCast, Nat.cast_one, Int.tdiv_one]

theorem mkRat_one_two_eq : (mkRat 1 2 : ℚ) = 1 / 2 := by
  rw [Rat.mkRat_eq_div]
  norm_num

theorem rhe_intCast (m : ℤ) : rhe ((m : ℤ) : ℚ) = m := by
  unfold rhe
  simp only [ratTrunc_intCast]
  have h1 : qsub ((m : ℤ) : ℚ) ((m : ℤ) : ℚ) = 0 := by rw [qsub_eq]; ring
  rw [h1, if_pos (by rw [mkRat_one_two_eq]; norm_num)]

theorem rhe_err {x : ℚ} (h : 0 ≤ x) : |(rhe x : ℚ) - x| ≤ 1 / 2 := by
  have hf : ratTrunc x = ⌊x⌋ := ratTrunc_eq_floor h
  have hq : qsub x ((ratTrunc x : ℤ) : ℚ) = x - (⌊x⌋ : ℚ) := by rw [qsub_eq, hf]
  have h1 : ((⌊x⌋ : ℤ) : ℚ) ≤ x := Int.floor_le x
  have h2 : x < ⌊x⌋ + 1 := Int.lt_floor_add_one x
  unfold rhe
  rw [hq, hf, mkRat_one_two_eq]
  split_ifs <;> push_cast <;> rw [abs_le] <;> constructor <;> linarith

theorem rhe_nonneg {x : ℚ} (h : 0 ≤ x) : 0 ≤ rhe x := by
  have hf : 0 ≤ ratTrunc x := ratTrunc_nonneg h
  unfold rhe
  split_ifs <;> omega

theorem expStep32_bounds (q : ℚ) (e w : ℤ) (h1 : zpow2 e ≤ q)
    (h2 : q < zpow2 (e + w + w)) :
    zpow2 (expStep32 q e w) ≤ q ∧ q < zpow2 (expStep32 q e w + w) := by
  unfold expStep32
  by_cases h : zpow2 (e + w) ≤ q
  · rw [if_pos h]
    exact ⟨h, by rw [show e + w + w = e + w + w from rfl] at h2; exact h2⟩
  · rw [if_neg h]
    exact ⟨h1, not_le.mp h⟩

theorem expSearch_spec (q : ℚ) (hlo : zpow2 (-126) ≤ q) (hhi : q < zpow2 130) :
    zpow2 (expSearch q) ≤ q ∧ q < zpow2 (expSearch q + 1) := by
  have s1 := expStep32_bounds q (-126) 128 hlo
    (by rw [show (-126 : ℤ) + 128 + 128 = 130 by ring]; exact hhi)
  have s2 := expStep32_bounds q _ 64 s1.1
    (by rw [show expStep32 q (-126) 128 + 64 + 64 = expStep32 q (-126) 128 + 128 by ring]
        exact s1.2)
  have s3 := expStep32_bounds q _ 32 s2.1
    (by rw [show expStep32 q (expStep32 q (-126) 128) 64 + 32 + 32 =
        expStep32 q (expStep32 q (-126) 128) 64 + 64 by ring]
        exact s2.2)
  have s4 := expStep32_bounds q _ 16 s3.1
    (by rw [show ∀ a : ℤ, a + 16 + 16 = a + 32 from fun a => by ring]; exact s3.2)
  have s5 := expStep32_bounds q _ 8 s4.1
    (by rw [show ∀ a : ℤ, a + 8 + 8 = a + 16 from fun a => by ring]; exact s4.2)
  have s6 := expStep32_bounds q _ 4 s5.1
    (by rw [show ∀ a : ℤ, a + 4 + 4 = a + 8 from fun a => by ring]; exact s5.2)
  have s7 := expStep32_bounds q _ 2 s6.1
    (by rw [show ∀ a : ℤ, a + 2 + 2 = a + 4 from fun a => by ring]; exact s6.2)
  have s8 := expStep32_bounds q _ 1 s7.1
    (by rw [show ∀ a : ℤ, a + 1 + 1 = a + 2 from fun a => by ring]; exact s7.2)
  exact s8


theorem zpow2_neg_one : zpow2 (-1) = 1 / 2 := by
  rw [zpow2, if_neg (by norm_num), Rat.mkRat_eq_div]
  norm_num

theorem roundPos_nonneg {q : ℚ} (h : 0 < q) : 0 ≤ roundPos q := by
  unfold roundPos
  split_ifs with hsub
  · rw [qmul_eq]
    have hx : 0 ≤ qmul q (zpow2 149) := by
      rw [qmul_eq]
      exact mul_nonneg h.le (zpow2_pos 149).le
    exact mul_nonneg (by exact_mod_cast rhe_nonneg hx) (zpow2_pos _).le
  · rw [qmul_eq]
    have hx : 0 ≤ qdiv q (zpow2 (expSearch q - 23)) := by
      rw [qdiv_eq]
      exact div_nonneg h.le (zpow2_pos _).le
    exact mul_nonneg (by exact_mod_cast rhe_nonneg hx) (zpow2_pos _).le

theorem roundPos_err {q : ℚ} (h0 : 0 < q) (hhi : q < zpow2 128) :
    |roundPos q - q| ≤ q * zpow2 (-24) + zpow2 (-150) := by
  have hq24 : 0 ≤ q * zpow2 (-24) := mul_nonneg h0.le (zpow2_pos _).le
  unfold roundPos
  split_ifs with hsub
  · have hx' : qmul q (zpow2 149) = q * zpow2 149 := qmul_eq _ _
    have hx0 : 0 ≤ qmul q (zpow2 149) := by
      rw [hx']
      exact mul_nonneg h0.le (zpow2_pos _).le
    have herr := rhe_err hx0
    have hcanc : zpow2 149 * zpow2 (-149) = 1 := by
      rw [zpow2_mul_zpow2]
      decide
    have key : qmul ((rhe (qmul q (zpow2 149)) : ℤ) : ℚ) (zpow2 (-149)) - q =
        ((rhe (qmul q (zpow2 149)) : ℚ) - qmul q (zpow2 149)) * zpow2 (-149) := by
      rw [qmul_eq, hx']
      have : q * zpow2 149 * zpow2 (-149) = q := by
        rw [mul_assoc, hcanc, mul_one]
      linear_combination this
    rw [key, abs_mul, abs_of_nonneg (zpow2_pos (-149)).le]
    have hb : |(rhe (qmul q (zpow2 149)) : ℚ) - qmul q (zpow2 149)| * zpow2 (-149) ≤
        (1 / 2) * zpow2 (-149) :=
      mul_le_mul_of_nonneg_right herr (zpow2_pos _).le
    have hhalf : (1 / 2 : ℚ) * zpow2 (-149) = zpow2 (-150) := by
      rw [← zpow2_neg_one, zpow2_mul_zpow2]
      decide
    linarith
  · have hlo : zpow2 (-126) ≤ q := not_lt.mp hsub
    obtain ⟨he1, he2⟩ := expSearch_spec q hlo
      (lt_of_lt_of_le hhi (zpow2_le_zpow2 (by norm_num)))
    have hu : zpow2 (expSearch q - 23) ≠ 0 := (zpow2_pos _).ne'
    have hx' : qdiv q (zpow2 (expSearch q - 23)) = q / zpow2 (expSearch q - 23) :=
      qdiv_eq _ _
    have hx0 : 0 ≤ qdiv q (zpow2 (expSearch q - 23)) := by
      rw [hx']
      exact div_nonneg h0.le (zpow2_pos _).le
    have herr := rhe_err hx0
    have key : qmul ((rhe (qdiv q (zpow2 (expSearch q - 23))) : ℤ) : ℚ)
        (zpow2 (expSearch q - 23)) - q =
        ((rhe (qdiv q (zpow2 (expSearch q - 23))) : ℚ) -
          qdiv q (zpow2 (expSearch q - 23))) * zpow2 (expSearch q - 23) := by
      rw [qmul_eq, hx']
      have : q / zpow2 (expSearch q - 23) * zpow2 (expSearch q - 23) = q :=
        div_mul_cancel₀ q hu
      linear_combination this
    rw [key, abs_mul, abs_of_nonneg (zpow2_pos _).le]
    have hb : |(rhe (qdiv q (zpow2 (expSearch q - 23))) : ℚ) -
        qdiv q (zpow2 (expSearch q - 23))| * zpow2 (expSearch q - 23) ≤
        (1 / 2) * zpow2 (expSearch q - 23) :=
      mul_le_mul_of_nonneg_right herr (zpow2_pos _).le
    have hhalf : (1 / 2 : ℚ) * zpow2 (expSearch q - 23) = zpow2 (expSearch q - 24) := by
      rw [← zpow2_neg_one, zpow2_mul_zpow2]
      congr 1
      ring
    have hle : zpow2 (expSearch q - 24) ≤ q * zpow2 (-24) := by
      have : zpow2 (expSearch q - 24) = zpow2 (expSearch q) * zpow2 (-24) := by
        rw [zpow2_mul_zpow2]
        congr 1
      rw [this]
      exact mul_le_mul_of_nonneg_right he1 (zpow2_pos _).le
    have hz : 0 < zpow2 (-150) := zpow2_pos _
    linarith


theorem zpow2_24_eq : zpow2 24 = ((2 ^ 24 : ℤ) : ℚ) := by decide

theorem qdiv_zpow2_eq_mul {q : ℚ} (a : ℤ) : qdiv q (zpow2 a) = q * zpow2 (-a) := by
  have hinv : zpow2 a * zpow2 (-a) = 1 := by
    rw [zpow2_mul_zpow2]
    rw [show a + -a = 0 by ring]
    decide
  rw [qdiv_eq, div_eq_iff (zpow2_pos a).ne']
  rw [mul_assoc, show zpow2 (-a) * zpow2 a = 1 by rw [mul_comm]; exact hinv, mul_one]

theorem roundPos_intCast {n : ℤ} (h0 : 0 < n) (h2 : n ≤ 2 ^ 24) :
    roundPos ((n : ℤ) : ℚ) = ((n : ℤ) : ℚ) := by
  by_cases hn24 : n = 2 ^ 24
  · subst hn24
    set_option maxRecDepth 40000 in decide
  · have hn1 : (1 : ℚ) ≤ ((n : ℤ) : ℚ) := by exact_mod_cast h0
    have h24q : ((n : ℤ) : ℚ) < zpow2 24 := by
      rw [zpow2_24_eq]
      exact_mod_cast lt_of_le_of_ne h2 hn24
    have hone : zpow2 (-126) ≤ 1 := by
      calc zpow2 (-126) ≤ zpow2 0 := zpow2_le_zpow2 (by norm_num)
      _ = 1 := by decide
    have hsubn : ¬ (((n : ℤ) : ℚ) < zpow2 (-126)) :=
      not_lt.mpr (le_trans hone hn1)
    rw [roundPos, if_neg hsubn]
    obtain ⟨he1, he2⟩ := expSearch_spec ((n : ℤ) : ℚ) (not_lt.mp hsubn)
      (lt_of_lt_of_le h24q (zpow2_le_zpow2 (by norm_num)))
    set e := expSearch ((n : ℤ) : ℚ) with hedef
    have he23 : e ≤ 23 := by
      by_contra hgt
      have h1 : zpow2 24 ≤ zpow2 e := zpow2_le_zpow2 (by omega)
      linarith
    have hk : (0 : ℤ) ≤ 23 - e := by omega
    have hcast : ((2 : ℚ)) ^ ((23 - e).toNat : ℕ) = zpow2 (23 - e) := by
      rw [zpow2_eq, ← zpow_natCast, Int.toNat_of_nonneg hk]
    have hxval : qdiv ((n : ℤ) : ℚ) (zpow2 (e - 23)) =
        ((n * 2 ^ (23 - e).toNat : ℤ) : ℚ) := by
      rw [qdiv_zpow2_eq_mul, show zpow2 (-(e - 23)) = zpow2 (23 - e) by congr 1; omega]
      push_cast
      rw [hcast]
    rw [hxval, rhe_intCast, qmul_eq]
    push_cast
    rw [hcast, show zpow2 (23 - e) = zpow2 (-(e - 23)) by congr 1; omega]
    have hinv : zpow2 (e - 23) * zpow2 (-(e - 23)) = 1 := by
      rw [zpow2_mul_zpow2, show e - 23 + -(e - 23) = 0 by ring]
      decide
    calc ((n : ℤ) : ℚ) * zpow2 (-(e - 23)) * zpow2 (e - 23)
        = ((n : ℤ) : ℚ) * (zpow2 (e - 23) * zpow2 (-(e - 23))) := by ring
      _ = ((n : ℤ) : ℚ) := by rw [hinv, mul_one]

theorem rhe_le_int {x : ℚ} {c : ℤ} (hx : 0 ≤ x) (hc : x < ((c : ℤ) : ℚ) + 1 / 2) :
    rhe x ≤ c := by
  have herr := rhe_err hx
  rw [abs_le] at herr
  by_contra hgt
  have h1 : ((c + 1 : ℤ) : ℚ) ≤ ((rhe x : ℤ) : ℚ) := by exact_mod_cast by omega
  push_cast at h1
  linarith

theorem roundPos_le_one {q : ℚ} (h0 : 0 < q) (h1 : q ≤ 1) : roundPos q ≤ 1 := by
  by_cases hq1 : q = 1
  · subst hq1
    set_option maxRecDepth 40000 in decide
  · have hqlt : q < 1 := lt_of_le_of_ne h1 hq1
    by_cases hsub : q < zpow2 (-126)
    · rw [roundPos, if_pos hsub, qmul_eq]
      have hx' : qmul q (zpow2 149) = q * zpow2 149 := qmul_eq _ _
      have hx0 : 0 ≤ qmul q (zpow2 149) := by
        rw [hx']
        exact mul_nonneg h0.le (zpow2_pos _).le
      have hxlt : qmul q (zpow2 149) < zpow2 23 := by
        rw [hx']
        calc q * zpow2 149 < zpow2 (-126) * zpow2 149 :=
              mul_lt_mul_of_pos_right hsub (zpow2_pos _)
          _ = zpow2 23 := by rw [zpow2_mul_zpow2]; norm_num
      have hm : rhe (qmul q (zpow2 149)) ≤ 2 ^ 23 := by
        refine rhe_le_int hx0 ?_
        have : zpow2 23 = ((2 ^ 23 : ℤ) : ℚ) := by decide
        rw [← this]
        linarith
      have hmq : ((rhe (qmul q (zpow2 149)) : ℤ) : ℚ) ≤ zpow2 23 := by
        rw [show zpow2 23 = ((2 ^ 23 : ℤ) : ℚ) by decide]
        exact_mod_cast hm
      calc ((rhe (qmul q (zpow2 149)) : ℤ) : ℚ) * zpow2 (-149)
          ≤ zpow2 23 * zpow2 (-149) :=
            mul_le_mul_of_nonneg_right hmq (zpow2_pos _).le
        _ = zpow2 (-126) := by rw [zpow2_mul_zpow2]; norm_num
        _ ≤ 1 := by
            calc zpow2 (-126) ≤ zpow2 0 := zpow2_le_zpow2 (by norm_num)
              _ = 1 := by decide
    · rw [roundPos, if_neg hsub]
      obtain ⟨he1, he2⟩ := expSearch_spec q (not_lt.mp hsub)
        (lt_trans hqlt (by rw [show (1 : ℚ) = zpow2 0 by decide]
                           exact zpow2_lt_zpow2 (by norm_num)))
      set e := expSearch q with hedef
      have heneg : e + 1 ≤ 0 := by
        by_contra hgt
        have : zpow2 0 ≤ zpow2 e := zpow2_le_zpow2 (by omega)
        rw [show zpow2 0 = 1 by decide] at this
        linarith
      have hx' : qdiv q (zpow2 (e - 23)) = q * zpow2 (23 - e) := by
        rw [qdiv_zpow2_eq_mul]
        congr 2
        omega
      have hx0 : 0 ≤ qdiv q (zpow2 (e - 23)) := by
        rw [hx']
        exact mul_nonneg h0.le (zpow2_pos _).le
      have hxlt : qdiv q (zpow2 (e - 23)) < zpow2 24 := by
        rw [hx']
        calc q * zpow2 (23 - e) < zpow2 (e + 1) * zpow2 (23 - e) :=
              mul_lt_mul_of_pos_right he2 (zpow2_pos _)
          _ = zpow2 24 := by rw [zpow2_mul_zpow2]; congr 1; omega
      have hm : rhe (qdiv q (zpow2 (e - 23))) ≤ 2 ^ 24 := by
        refine rhe_le_int hx0 ?_
        rw [← zpow2_24_eq]
        linarith
      have hmq : ((rhe (qdiv q (zpow2 (e - 23))) : ℤ) : ℚ) ≤ zpow2 24 := by
        rw [zpow2_24_eq]
        exact_mod_cast hm
      rw [qmul_eq]
      calc ((rhe (qdiv q (zpow2 (e - 23))) : ℤ) : ℚ) * zpow2 (e - 23)
          ≤ zpow2 24 * zpow2 (e - 23) :=
            mul_le_mul_of_nonneg_right hmq (zpow2_pos _).le
        _ = zpow2 (e + 1) := by rw [zpow2_mul_zpow2]; congr 1; omega
        _ ≤ zpow2 0 := zpow2_le_zpow2 heneg
        _ = 1 := by decide


theorem qneg_eq (q : ℚ) : qneg q = -q := by
  rw [qneg, Rat.mkRat_eq_div]
  push_cast
  rw [neg_div, Rat.num_div_den]

theorem roundF32_zero : roundF32 0 = 0 := by decide

theorem roundF32_nonneg {q : ℚ} (h : 0 ≤ q) : 0 ≤ roundF32 q := by
  unfold roundF32
  rcases eq_or_lt_of_le h with h0 | h0
  · rw [if_pos h0.symm]
  · rw [if_neg h0.ne', if_pos h0]
    exact roundPos_nonneg h0

theorem roundF32_nonpos {q : ℚ} (h : q ≤ 0) : roundF32 q ≤ 0 := by
  unfold roundF32
  rcases eq_or_lt_of_le h with h0 | h0
  · rw [if_pos h0]
  · rw [if_neg h0.ne, if_neg (by linarith), qneg_eq, qneg_eq]
    have := roundPos_nonneg (q := -q) (by linarith)
    linarith

theorem roundF32_intCast {n : ℤ} (h0 : 0 ≤ n) (h1 : n ≤ 2 ^ 24) :
    roundF32 ((n : ℤ) : ℚ) = ((n : ℤ) : ℚ) := by
  unfold roundF32
  rcases eq_or_lt_of_le h0 with hz | hz
  · rw [if_pos (by exact_mod_cast hz.symm)]
    exact_mod_cast hz
  · rw [if_neg (by exact_mod_cast hz.ne'), if_pos (by exact_mod_cast hz)]
    exact roundPos_intCast hz h1

theorem roundF32_err {q : ℚ} (h0 : 0 ≤ q) (hhi : q < zpow2 128) :
    |roundF32 q - q| ≤ q * zpow2 (-24) + zpow2 (-150) := by
  unfold roundF32
  rcases eq_or_lt_of_le h0 with hz | hz
  · rw [if_pos hz.symm, ← hz]
    simp only [sub_zero, abs_zero, zero_mul, zero_add]
    exact (zpow2_pos _).le
  · rw [if_neg hz.ne', if_pos hz]
    exact roundPos_err hz hhi

theorem roundF32_le_one {q : ℚ} (h : q ≤ 1) : roundF32 q ≤ 1 := by
  rcases le_or_lt q 0 with h0 | h0
  · exact le_trans (roundF32_nonpos h0) (by norm_num)
  · unfold roundF32
    rw [if_neg h0.ne', if_pos h0]
    exact roundPos_le_one h0 h

theorem roundF32_le {q : ℚ} (h0 : 0 ≤ q) (hhi : q < zpow2 128) :
    roundF32 q ≤ q + q * zpow2 (-24) + zpow2 (-150) := by
  have := roundF32_err h0 hhi
  rw [abs_le] at this
  linarith [this.2]

/-- Above `2^24` the `f32` product of two exactly-representable integers
need not be exact: `3355445 * 5 = 16777225` rounds to even, giving
`16777224` — the boundary that the reproduction-energy theorem's
`initial_energy` bound stays below. -/
theorem f32mul_round_to_even : f32mul ((3355445 : ℤ) : ℚ) 5 = 16777224 := by
  set_option maxRecDepth 40000 in decide

set_option maxHeartbeats 1000000 in
/-- The behaviour of one `Tile::regenerate` call, with its `f32`
arithmetic correctly rounded: for rates in `[0, 1]`, a nonnegative
amount and capacity at most `2^24`, a below-capacity `Resource` tile
strictly grows and never exceeds its capacity (the rounded growth term
is at most `resource_amount + 6`, so the `i32` addition cannot wrap),
and any other tile is unchanged. -/
theorem tile_regenerate_bounds (t : Tile) (rate : ℚ)
    (hrate0 : 0 ≤ rate) (hrate1 : rate ≤ 1)
    (hr0 : 0 ≤ t.resource_amount) (hmax : t.max_resource ≤ 2 ^ 24) :
    (t.tile_type = .Resource → t.resource_amount < t.max_resource →
      t.resource_amount < (t.regenerate rate).resource_amount ∧
      (t.regenerate rate).resource_amount ≤ t.max_resource) ∧
    (¬ (t.tile_type = .Resource ∧ t.resource_amount < t.max_resource) →
      t.regenerate rate = t) := by
  constructor
  · intro hty hlt
    have hM0 : 0 < t.max_resource := lt_of_le_of_lt hr0 hlt
    unfold Tile.regenerate
    rw [if_pos ⟨hty, hlt⟩]
    show t.resource_amount < imin (add32 t.resource_amount (imax (f32toI32 (f32mul
        (f32mul rate (i32toF32 t.resource_amount)) (f32sub 1 (f32div
        (i32toF32 t.resource_amount) (i32toF32 t.max_resource))))) 1)) t.max_resource ∧
      imin (add32 t.resource_amount (imax (f32toI32 (f32mul
        (f32mul rate (i32toF32 t.resource_amount)) (f32sub 1 (f32div
        (i32toF32 t.resource_amount) (i32toF32 t.max_resource))))) 1)) t.max_resource ≤
        t.max_resource
    have ha : i32toF32 t.resource_amount = ((t.resource_amount : ℤ) : ℚ) :=
      roundF32_intCast hr0 (by omega)
    have hm : i32toF32 t.max_resource = ((t.max_resource : ℤ) : ℚ) :=
      roundF32_intCast hM0.le hmax
    rw [ha, hm]
    set rq : ℚ := ((t.resource_amount : ℤ) : ℚ) with hrq
    set Mq : ℚ := ((t.max_resource : ℤ) : ℚ) with hMq
    have hrq0 : 0 ≤ rq := by rw [hrq]; exact_mod_cast hr0
    have hMq0 : 0 < Mq := by rw [hMq]; exact_mod_cast hM0
    have hrqM : rq < Mq := by rw [hrq, hMq]; exact_mod_cast hlt
    have hMq24 : Mq ≤ zpow2 24 := by
      rw [hMq, zpow2_24_eq]
      exact_mod_cast hmax
    have h128 : zpow2 24 < zpow2 128 := zpow2_lt_zpow2 (by norm_num)
    have hone24 : rq * zpow2 (-24) ≤ 1 := by
      calc rq * zpow2 (-24) ≤ zpow2 24 * zpow2 (-24) :=
            mul_le_mul_of_nonneg_right (by linarith) (zpow2_pos _).le
        _ = 1 := by rw [zpow2_mul_zpow2]; decide
    have heps0 : (0 : ℚ) < zpow2 (-24) := zpow2_pos _
    have heps1 : zpow2 (-24) ≤ 1 := by
      calc zpow2 (-24) ≤ zpow2 0 := zpow2_le_zpow2 (by norm_num)
        _ = 1 := by decide
    have hdel1 : zpow2 (-150) ≤ 1 := by
      calc zpow2 (-150) ≤ zpow2 0 := zpow2_le_zpow2 (by norm_num)
        _ = 1 := by decide
    have hdel0 : (0 : ℚ) < zpow2 (-150) := zpow2_pos _
    -- the division
    have hdiv : qdiv rq Mq = rq / Mq := qdiv_eq _ _
    have hd0 : 0 ≤ rq / Mq := div_nonneg hrq0 hMq0.le
    have hd1 : rq / Mq ≤ 1 := (div_le_one hMq0).mpr hrqM.le
    have ht2a : 0 ≤ f32div rq Mq := by
      rw [f32div, hdiv]
      exact roundF32_nonneg hd0
    have ht2b : f32div rq Mq ≤ 1 := by
      rw [f32div, hdiv]
      exact roundF32_le_one hd1
    -- the subtraction
    have hsubval : qsub 1 (f32div rq Mq) = 1 - f32div rq Mq := qsub_eq _ _
    have ht3a : 0 ≤ f32sub 1 (f32div rq Mq) := by
      rw [f32sub, hsubval]
      exact roundF32_nonneg (by linarith)
    have ht3b : f32sub 1 (f32div rq Mq) ≤ 1 := by
      rw [f32sub, hsubval]
      exact roundF32_le_one (by linarith)
    -- the first multiplication
    have hmulval : qmul rate rq = rate * rq := qmul_eq _ _
    have hp0 : 0 ≤ rate * rq := mul_nonneg hrate0 hrq0
    have hp1 : rate * rq ≤ rq := mul_le_of_le_one_left hrq0 hrate1
    have ht1a : 0 ≤ f32mul rate rq := by
      rw [f32mul, hmulval]
      exact roundF32_nonneg hp0
    have ht1b : f32mul rate rq ≤ rq + rq * zpow2 (-24) + zpow2 (-150) := by
      rw [f32mul, hmulval]
      have hlt : rate * rq < zpow2 128 := by linarith
      have h1 := roundF32_le hp0 hlt
      have h2 : rate * rq * zpow2 (-24) ≤ rq * zpow2 (-24) :=
        mul_le_mul_of_nonneg_right hp1 heps0.le
      linarith
    -- the second multiplication
    have hq0 : 0 ≤ f32mul rate rq * f32sub 1 (f32div rq Mq) := mul_nonneg ht1a ht3a
    have hq1 : f32mul rate rq * f32sub 1 (f32div rq Mq) ≤ f32mul rate rq :=
      mul_le_of_le_one_right ht1a ht3b
    have hmulval2 : qmul (f32mul rate rq) (f32sub 1 (f32div rq Mq)) =
        f32mul rate rq * f32sub 1 (f32div rq Mq) := qmul_eq _ _
    have ht4a : 0 ≤ f32mul (f32mul rate rq) (f32sub 1 (f32div rq Mq)) := by
      rw [f32mul, hmulval2]
      exact roundF32_nonneg hq0
    have h2eq : (2 : ℚ) = zpow2 1 := by decide
    have h25 : zpow2 24 * zpow2 1 = zpow2 25 := by rw [zpow2_mul_zpow2]; norm_num
    have h25le : zpow2 25 ≤ zpow2 128 := zpow2_le_zpow2 (by norm_num)
    have hone24b : (1 : ℚ) ≤ zpow2 24 := by
      calc (1 : ℚ) = zpow2 0 := by decide
        _ ≤ zpow2 24 := zpow2_le_zpow2 (by norm_num)
    have ht4b : f32mul (f32mul rate rq) (f32sub 1 (f32div rq Mq)) ≤ rq + 6 := by
      rw [f32mul, hmulval2]
      have h2z : (2 : ℚ) ≤ zpow2 24 := by
        rw [h2eq]
        exact zpow2_le_zpow2 (by norm_num)
      have hdz : zpow2 24 + zpow2 24 = zpow2 25 := by
        rw [← h25, ← h2eq]
        ring
      have hlt128 : f32mul rate rq * f32sub 1 (f32div rq Mq) < zpow2 128 := by
        linarith
      have h1 := roundF32_le hq0 hlt128
      have hA : f32mul rate rq * zpow2 (-24) ≤
          (rq + rq * zpow2 (-24) + zpow2 (-150)) * zpow2 (-24) :=
        mul_le_mul_of_nonneg_right ht1b heps0.le
      have hB : (rq + rq * zpow2 (-24) + zpow2 (-150)) * zpow2 (-24) =
          rq * zpow2 (-24) + rq * zpow2 (-24) * zpow2 (-24) +
            zpow2 (-150) * zpow2 (-24) := by ring
      have hC : rq * zpow2 (-24) * zpow2 (-24) ≤ 1 * 1 :=
        mul_le_mul hone24 heps1 heps0.le (by norm_num)
      have hD : zpow2 (-150) * zpow2 (-24) ≤ 1 := by
        rw [zpow2_mul_zpow2]
        calc zpow2 (-150 + -24) ≤ zpow2 0 := zpow2_le_zpow2 (by norm_num)
          _ = 1 := by decide
      have hE : f32mul rate rq * f32sub 1 (f32div rq Mq) * zpow2 (-24) ≤
          f32mul rate rq * zpow2 (-24) :=
        mul_le_mul_of_nonneg_right hq1 heps0.le
      linarith
    -- the growth cast
    have htr : ratTrunc (f32mul (f32mul rate rq) (f32sub 1 (f32div rq Mq))) ≤
        t.resource_amount + 6 := by
      have h1 : (ratTrunc (f32mul (f32mul rate rq) (f32sub 1 (f32div rq Mq))) : ℚ) ≤
          rq + 6 := le_trans (ratTrunc_le ht4a) ht4b
      rw [hrq] at h1
      exact_mod_cast h1
    have htr0 : 0 ≤ ratTrunc (f32mul (f32mul rate rq) (f32sub 1 (f32div rq Mq))) :=
      ratTrunc_nonneg ht4a
    have hg : f32toI32 (f32mul (f32mul rate rq) (f32sub 1 (f32div rq Mq))) ≤
        t.resource_amount + 6 :=
      le_trans (f32toI32_le_ratTrunc (by omega)) htr
    set g := f32toI32 (f32mul (f32mul rate rq) (f32sub 1 (f32div rq Mq))) with hgdef
    rw [imax_eq_max, imin_eq_min]
    have hadd : add32 t.resource_amount (max g 1) = t.resource_amount + max g 1 := by
      apply wrap32_eq_self
      · have := le_max_right g 1
        omega
      · have h1 : max g 1 ≤ t.resource_amount + 6 := by omega
        omega
    rw [hadd]
    constructor
    · have h1 : 1 ≤ max g 1 := le_max_right g 1
      omega
    · omega
  · intro h
    unfold Tile.regenerate
    rw [if_neg h]
theorem neg_tmod (a b : ℤ) : (-a).tmod b = -(a.tmod b) := by
  rw [Int.tmod_def, Int.tmod_def, Int.neg_tdiv]
  ring

theorem tmod_lower {a b : ℤ} (hb : 0 < b) : -b < a.tmod b := by
  rcases le_or_lt 0 a with ha | ha
  · have := Int.tmod_nonneg b ha
    omega
  · have h1 : a.tmod b = -((-a).tmod b) := by rw [neg_tmod]; ring_nf
    have h2 := Int.tmod_lt_of_pos (-a) hb
    have h3 := Int.tmod_nonneg b (by omega : (0 : ℤ) ≤ -a)
    omega

/-- The behaviour of one axis of `Position::wrap` when the dimension is at
most `2^30` (so that the inner `i32` addition cannot overflow). -/
theorem wrap_axis_spec {x w : ℤ} (_hx : inI32 x) (hw1 : 0 < w) (hw2 : w ≤ 2 ^ 30) :
    (0 ≤ i32rem (add32 (i32rem x w) w) w ∧ i32rem (add32 (i32rem x w) w) w < w) ∧
    (∀ y : ℤ, 0 ≤ y → y < w → i32rem (add32 (i32rem y w) w) w = y) := by
  constructor
  · have hlo := tmod_lower (a := x) hw1
    have hhi := Int.tmod_lt_of_pos x hw1
    unfold i32rem
    have hadd : add32 (Int.tmod x w) w = Int.tmod x w + w := by
      unfold add32
      exact wrap32_eq_self (by omega) (by omega)
    rw [hadd, Int.tmod_eq_emod (by omega) (by omega)]
    exact ⟨Int.emod_nonneg _ (by omega), Int.emod_lt_of_pos _ hw1⟩
  · intro y hy1 hy2
    have hrem : i32rem y w = y := by
      unfold i32rem
      rw [Int.tmod_eq_emod hy1 (by omega)]
      exact Int.emod_eq_of_lt hy1 hy2
    rw [hrem]
    have hadd : add32 y w = y + w := by
      unfold add32
      exact wrap32_eq_self (by omega) (by omega)
    rw [hadd]
    unfold i32rem
    rw [Int.tmod_eq_emod (by omega) (by omega)]
    have : (y + w) % w = y % w := by
      have h1 := Int.add_mul_emod_self_left (a := y) (b := w) (c := 1)
      simp only [mul_one] at h1
      exact h1
    rw [this]
    exact Int.emod_eq_of_lt hy1 hy2

/-! ## Claim C5 -/

/-- C5, counterexample: as stated (for every tile and every rate), the
claim is false, and even a rate bound alone does not save it.
Scenario A (rate `1.0`, inside `[0,1]`): on `{Resource, 2147483547,
2147483647}` the lossy `as f32` casts round the amount down to
`2147483520` and the capacity up to `2^31`, the growth chain evaluates
to `127.99999237...`, `as i32` gives `127`, and the `i32` addition
`2147483547 + 127` wraps: the tile drops to `-2147483622` — smaller, not
strictly larger.  Scenario B (rate `10^10` on the small tile
`{Resource, 50, 100}`): the growth cast saturates at `2^31 - 1` and the
addition wraps `50` down to `-2147483599`. -/
theorem c5_regenerate_overflow_counterexample :
    (((Tile.resource 2147483547 2147483647).regenerate 1).resource_amount
        = -2147483622 ∧
      ¬ (2147483547 : ℤ) <
        ((Tile.resource 2147483547 2147483647).regenerate 1).resource_amount ∧
      (0 : ℚ) ≤ 1 ∧ (1 : ℚ) ≤ 1 ∧ (2147483547 : ℤ) < 2147483647) ∧
    (((Tile.resource 50 100).regenerate 10000000000).resource_amount
        = -2147483599 ∧
      ¬ (50 : ℤ) < ((Tile.resource 50 100).regenerate 10000000000).resource_amount) := by
  set_option maxRecDepth 100000 in decide

/-- C5 (amended): for every rate in `[0, 1]` and every tile with a
nonnegative amount and capacity at most `2^24`: a `Resource` tile below
capacity strictly grows and never exceeds the capacity, and any other
tile (or a `Resource` tile at capacity) is unchanged; concretely
`{Resource, 50, 100}` regenerated at rate `0.1` — both at the exact
`f32` value of the literal `0.1`, `13421773 / 2^27`, and at the exact
rational `1/10` — ends with amount 52. -/
theorem c5_regenerate_amended :
    (∀ (t : Tile) (rate : ℚ), 0 ≤ rate → rate ≤ 1 →
      0 ≤ t.resource_amount → t.max_resource ≤ 2 ^ 24 →
      (t.tile_type = .Resource → t.resource_amount < t.max_resource →
        t.resource_amount < (t.regenerate rate).resource_amount ∧
        (t.regenerate rate).resource_amount ≤ t.max_resource) ∧
      (¬ (t.tile_type = .Resource ∧ t.resource_amount < t.max_resource) →
        t.regenerate rate = t)) ∧
    (Tile.resource 50 100).regenerate (mkRat 13421773 134217728) = Tile.resource 52 100 ∧
    (Tile.resource 50 100).regenerate (mkRat 1 10) = Tile.resource 52 100 := by
  refine ⟨fun t rate h1 h2 h3 h4 => tile_regenerate_bounds t rate h1 h2 h3 h4, ?_, ?_⟩
  · set_option maxRecDepth 100000 in decide
  · set_option maxRecDepth 100000 in decide

/-- C5 witness: the amended theorem applied at the concrete resource
tile `{Resource, 50, 100}` with the exact `f32` value of rate `0.1`. -/
theorem c5_regenerate_amended_witness :
    (0 : ℚ) ≤ mkRat 13421773 134217728 ∧ (mkRat 13421773 134217728 : ℚ) ≤ 1 ∧
    (0 : ℤ) ≤ 50 ∧ (100 : ℤ) ≤ 2 ^ 24 ∧
    50 < ((Tile.resource 50 100).regenerate (mkRat 13421773 134217728)).resource_amount ∧
    ((Tile.resource 50 100).regenerate (mkRat 13421773 134217728)).resource_amount ≤ 100 :=
  ⟨by decide, by decide, by decide, by decide,
    ((c5_regenerate_amended.1 (Tile.resource 50 100) (mkRat 13421773 134217728)
      (by decide) (by decide) (by decide) (by decide)).1 rfl (by decide)).1,
    ((c5_regenerate_amended.1 (Tile.resource 50 100) (mkRat 13421773 134217728)
      (by decide) (by decide) (by decide) (by decide)).1 rfl (by decide)).2⟩

/-! ## Claim C8 -/

/-- C8, counterexample: as stated (for every position and all positive
dimensions), the claim is false.  With `W = H = 2^31 - 1` and
`p = (2^31 - 2, 2^31 - 2)` the inner addition `(p.x % W) + W` overflows
`i32`, and `wrap` returns `(-3, -3)`, which is not in `[0, W)`. -/
theorem c8_wrap_overflow_counterexample :
    (0 : ℤ) < 2147483647 ∧
    (Position.new 2147483646 2147483646).wrap 2147483647 2147483647 =
      Position.new (-3) (-3) ∧
    ¬ (0 ≤ ((Position.new 2147483646 2146483646).wrap 2147483647 2147483647).x) := by
  refine ⟨by decide, by decide, by decide⟩

/-- C8 (amended): for every position with `i32` coordinates and all
dimensions `0 < W, H ≤ 2^30` (so that the inner `i32` addition cannot
overflow), `wrap` lands in `[0, W) × [0, H)` and is idempotent; concretely
`(-1,-1).wrap(10,10) = (9,9)` and `(10,10).wrap(10,10) = (0,0)`. -/
theorem c8_wrap_amended :
    (∀ (p : Position) (w h : ℤ), inI32 p.x → inI32 p.y →
      0 < w → w ≤ 2 ^ 30 → 0 < h → h ≤ 2 ^ 30 →
      (0 ≤ (p.wrap w h).x ∧ (p.wrap w h).x < w ∧
       0 ≤ (p.wrap w h).y ∧ (p.wrap w h).y < h) ∧
      (p.wrap w h).wrap w h = p.wrap w h) ∧
    (Position.new (-1) (-1)).wrap 10 10 = Position.new 9 9 ∧
    (Position.new 10 10).wrap 10 10 = Position.new 0 0 := by
  refine ⟨fun p w h hx hy hw1 hw2 hh1 hh2 => ?_, by decide, by decide⟩
  obtain ⟨⟨hx0, hxw⟩, hxid⟩ := wrap_axis_spec hx hw1 hw2
  obtain ⟨⟨hy0, hyh⟩, hyid⟩ := wrap_axis_spec hy hh1 hh2
  refine ⟨⟨hx0, hxw, hy0, hyh⟩, ?_⟩
  show Position.wrap _ _ _ = _
  unfold Position.wrap
  simp only
  congr 1
  · exact hxid _ hx0 hxw
  · exact hyid _ hy0 hyh

/-- C8 witness: the amended theorem applied at `p = (-1, -1)`,
`W = H = 10`. -/
theorem c8_wrap_amended_witness :
    (0 ≤ ((Position.new (-1) (-1)).wrap 10 10).x ∧
     ((Position.new (-1) (-1)).wrap 10 10).x < 10 ∧
     0 ≤ ((Position.new (-1) (-1)).wrap 10 10).y ∧
     ((Position.new (-1) (-1)).wrap 10 10).y < 10) ∧
    (((Position.new (-1) (-1)).wrap 10 10).wrap 10 10 =
      (Position.new (-1) (-1)).wrap 10 10) :=
  c8_wrap_amended.1 (Position.new (-1) (-1)) 10 10
    (by decide) (by decide) (by decide) (by decide) (by decide) (by decide)

/-! ## Claim C10 -/

/-- C10: `Grid::neighbors(p, 1)` returns exactly 8 pairs, in ascending
`(dy, dx)` order from `(-1,-1)` to `(1,1)` skipping `(0,0)`; the i-th
position is the unwrapped sum `p + (dx, dy)`, while the paired tile is
the one `get` reads there, i.e. the tile at the toroidally wrapped
coordinate. -/
theorem c10_neighbors_spec :
    (∀ (g : Grid) (p : Position),
      g.neighbors p 1 =
        [((-1 : ℤ), (-1 : ℤ)), (-1, 0), (-1, 1), (0, -1), (0, 1), (1, -1), (1, 0), (1, 1)].map
          (fun d => (p.add d.2 d.1, g.get (p.add d.2 d.1)))) ∧
    (∀ (g : Grid) (p : Position), (g.neighbors p 1).length = 8) ∧
    (∀ (g : Grid) (q : Position),
      g.get q = g.tiles.getD (g.pos_to_index (q.wrap g.width g.height)) Tile.empty) :=
  ⟨fun _ _ => rfl, fun _ _ => rfl, fun _ _ => rfl⟩

/-! ## Helper lemmas for the validator (claim C7) -/

theorem validate_function_blocks_ok (fidx total : ℕ) (l : List (ℕ × BasicBlock)) :
    validate_function_blocks fidx total l = .ok () ↔
      ∀ pr ∈ l, ¬(pr.2.is_empty = true ∧ pr.1 < total - 1) := by
  induction l with
  | nil => simp [validate_function_blocks]
  | cons hd tl ih =>
    obtain ⟨bidx, b⟩ := hd
    simp only [validate_function_blocks]
    rcases Decidable.em (b.is_empty = true ∧ bidx < total - 1) with h | h
    · rw [if_pos h]
      constructor
      · intro hc; simp at hc
      · intro hall
        exact absurd h (by simpa using hall (bidx, b) (List.mem_cons_self _ _))
    · rw [if_neg h, ih]
      constructor
      · intro hall pr hpr
        rcases List.mem_cons.mp hpr with rfl | hpr2
        · simpa using h
        · exact hall pr hpr2
      · intro hall pr hpr
        exact hall pr (List.mem_cons.mpr (Or.inr hpr))

theorem validate_function_ok (f : Function) (idx : ℕ) :
    validate_function f idx = .ok () ↔
      (f.blocks ≠ [] ∧
       ∀ pr ∈ f.blocks.enum, ¬(pr.2.is_empty = true ∧ pr.1 < f.blocks.length - 1)) := by
  unfold validate_function
  rcases Decidable.em (f.blocks.isEmpty = true) with h | h
  · rw [if_pos h]
    rw [List.isEmpty_iff] at h
    constructor
    · intro hc; simp at hc
    · intro hc; exact absurd h hc.1
  · rw [if_neg h, validate_function_blocks_ok]
    rw [List.isEmpty_iff] at h
    simp [h]

theorem validate_functions_ok (l : List (ℕ × Function)) :
    validate_functions l = .ok () ↔ ∀ pr ∈ l, validate_function pr.2 pr.1 = .ok () := by
  induction l with
  | nil => simp [validate_functions]
  | cons hd tl ih =>
    obtain ⟨idx, f⟩ := hd
    simp only [validate_functions]
    cases hvf : validate_function f idx with
    | error e =>
      constructor
      · intro hc; simp at hc
      · intro hall
        have h1 := hall (idx, f) (List.mem_cons_self _ _)
        rw [hvf] at h1
        simp at h1
    | ok u =>
      cases u
      rw [ih]
      constructor
      · intro hall pr hpr
        rcases List.mem_cons.mp hpr with rfl | hpr2
        · exact hvf
        · exact hall pr hpr2
      · intro hall pr hpr
        exact hall pr (List.mem_cons.mpr (Or.inr hpr))

theorem validate_program_ok (p : Program) :
    validate_program p = .ok () ↔
      (p.get_init_function.isSome = true ∧ p.get_step_function.isSome = true ∧
       ∀ pr ∈ p.functions.enum, validate_function pr.2 pr.1 = .ok ()) := by
  unfold validate_program
  rcases Decidable.em (p.get_init_function.isNone = true) with h1 | h1
  · rw [if_pos h1]
    constructor
    · intro hc; simp at hc
    · intro hc
      rw [Option.isNone_iff_eq_none] at h1
      rw [h1] at hc
      simp at hc
  · rw [if_neg h1]
    rcases Decidable.em (p.get_step_function.isNone = true) with h2 | h2
    · rw [if_pos h2]
      constructor
      · intro hc; simp at hc
      · intro hc
        rw [Option.isNone_iff_eq_none] at h2
        rw [h2] at hc
        simp at hc
    · rw [if_neg h2, validate_functions_ok]
      have h1s : p.get_init_function.isSome = true := by
        cases hopt : p.get_init_function <;> simp [hopt] at h1 ⊢
      have h2s : p.get_step_function.isSome = true := by
        cases hopt : p.get_step_function <;> simp [hopt] at h2 ⊢
      constructor
      · intro hall
        exact ⟨h1s, h2s, hall⟩
      · intro hc
        exact hc.2.2

theorem block_loop_iff (blocks : List BasicBlock) :
    (∀ pr ∈ blocks.enum, ¬(pr.2.is_empty = true ∧ pr.1 < blocks.length - 1)) ↔
      (∀ i, i + 1 < blocks.length → ¬(blocks.getD i BasicBlock.new).is_empty = true) := by
  constructor
  · intro hall i hi hempty
    have hlt : i < blocks.length := by omega
    have hmem : (i, blocks[i]) ∈ blocks.enum := by
      rw [List.mem_enum_iff_getElem?]
      exact List.getElem?_eq_getElem hlt
    refine hall (i, blocks[i]) hmem ⟨?_, by omega⟩
    rw [List.getD_eq_getElem?_getD, List.getElem?_eq_getElem hlt] at hempty
    simpa using hempty
  · intro hall pr hpr ⟨hemp, hlt⟩
    rw [List.mem_enum_iff_getElem?] at hpr
    obtain ⟨hlen, hget⟩ := List.getElem?_eq_some_iff.mp hpr
    refine hall pr.1 (by omega) ?_
    rw [List.getD_eq_getElem?_getD, List.getElem?_eq_getElem hlen]
    simpa [hget] using hemp

theorem except_error_iff (v : Except String Unit) :
    (∃ e, v = .error e) ↔ ¬(v = .ok ()) := by
  cases v with
  | error e => simp
  | ok u => cases u; simp



theorem funs_loop_iff (p : Program) :
    (∀ pr ∈ p.functions.enum, validate_function pr.2 pr.1 = .ok ()) ↔
      (∀ f ∈ p.functions, f.blocks ≠ [] ∧
        ∀ i, i + 1 < f.blocks.length → ¬(f.blocks.getD i BasicBlock.new).is_empty = true) := by
  constructor
  · intro hall f hf
    obtain ⟨i, hi⟩ := List.mem_iff_getElem?.mp hf
    have hmem : (i, f) ∈ p.functions.enum := List.mem_enum_iff_getElem?.mpr hi
    have h := (validate_function_ok f i).mp (hall (i, f) hmem)
    exact ⟨h.1, (block_loop_iff f.blocks).mp h.2⟩
  · intro hall pr hpr
    rw [List.mem_enum_iff_getElem?] at hpr
    have hf : pr.2 ∈ p.functions := List.getElem?_mem hpr
    have h := hall pr.2 hf
    exact (validate_function_ok pr.2 pr.1).mpr ⟨h.1, (block_loop_iff pr.2.blocks).mpr h.2⟩

/-! ## Helper lemmas for the mutator (claim C6) -/

theorem getD_opcode_prop {P : Opcode → Prop} {cls : List Opcode} {fb : Opcode} (k : ℕ)
    (hcls : ∀ x ∈ cls, P x) (hfb : P fb) : P (cls.getD k fb) := by
  rw [List.getD_eq_getElem?_getD]
  cases h : cls[k]? with
  | none => simpa using hfb
  | some x => simpa using hcls x (List.getElem?_mem h)

theorem pickOpcode_preserves {cls : List Opcode} {fb : Opcode} (rng : Rng)
    (hcls : ∀ x ∈ cls, x.num_operands = fb.num_operands ∧ x ≠ .LoadConst ∧ x ≠ .Return)
    (hfb : fb ≠ .LoadConst ∧ fb ≠ .Return) :
    (pickOpcode cls fb rng).1.num_operands = fb.num_operands ∧
    (pickOpcode cls fb rng).1 ≠ .LoadConst ∧ (pickOpcode cls fb rng).1 ≠ .Return := by
  unfold pickOpcode
  exact getD_opcode_prop _ hcls ⟨rfl, hfb.1, hfb.2⟩

theorem mutate_opcode_arity (m : Mutator) (op : Opcode) (rng : Rng) :
    (m.mutate_opcode op rng).1.num_operands = op.num_operands ∧
    ((m.mutate_opcode op rng).1 = .LoadConst ↔ op = .LoadConst) ∧
    ((m.mutate_opcode op rng).1 = .Return ↔ op = .Return) := by
  cases op <;>
    first
      | exact ⟨rfl, Iff.rfl, Iff.rfl⟩
      | (refine ⟨(pickOpcode_preserves _ ?_ ?_).1,
          iff_of_false (pickOpcode_preserves _ ?_ ?_).2.1 ?_,
          iff_of_false (pickOpcode_preserves _ ?_ ?_).2.2 ?_⟩ <;> decide)

theorem arityOkAmended_iff (i : Instruction) : arityOkAmended i = true ↔
    (i.operands.length = i.opcode.num_operands ∨
     ((i.opcode = .LoadConst ∨ i.opcode = .Return) ∧ i.operands.length = 1)) := by
  simp [arityOkAmended, arityOk, Bool.or_eq_true, Bool.and_eq_true, beq_iff_eq]

theorem mutate_operands_each_length (m : Mutator) (l : List Operand) (rng : Rng) :
    ((m.mutate_operands_each l rng).1).length = l.length := by
  induction l generalizing rng with
  | nil => rfl
  | cons op rest ih =>
    simp only [Mutator.mutate_operands_each, List.length_cons]
    rw [ih]

theorem point_mutate_go_components (m : Mutator) (inst : Instruction) (k : ℕ) (rng : Rng) :
    ((m.point_mutate_go inst k rng).1.opcode = inst.opcode ∧
     (m.point_mutate_go inst k rng).1.operands.length = inst.operands.length) ∨
    ((m.point_mutate_go inst k rng).1.operands = inst.operands ∧
     (m.point_mutate_go inst k rng).1.opcode.num_operands = inst.opcode.num_operands ∧
     ((m.point_mutate_go inst k rng).1.opcode = .LoadConst ↔ inst.opcode = .LoadConst) ∧
     ((m.point_mutate_go inst k rng).1.opcode = .Return ↔ inst.opcode = .Return)) := by
  rcases k with _ | _ | k
  · exact Or.inr ⟨rfl, (mutate_opcode_arity m inst.opcode rng).1,
      (mutate_opcode_arity m inst.opcode rng).2.1, (mutate_opcode_arity m inst.opcode rng).2.2⟩
  · exact Or.inl ⟨rfl, mutate_operands_each_length m inst.operands rng⟩
  · unfold Mutator.point_mutate_go
    cases hd : inst.dest
    · exact Or.inl ⟨rfl, rfl⟩
    · exact Or.inl ⟨rfl, rfl⟩

theorem point_mutate_amended (m : Mutator) (inst : Instruction) (rng : Rng)
    (h : arityOkAmended inst = true) :
    arityOkAmended (m.point_mutate inst rng).1 = true := by
  rw [arityOkAmended_iff] at h ⊢
  rcases point_mutate_go_components m inst (rng.genRangeNat 0 3).1 (rng.genRangeNat 0 3).2
    with ⟨hop, hlen⟩ | ⟨hops, hn, hlc, hret⟩ <;>
    unfold Mutator.point_mutate
  · rw [hop, hlen]
    exact h
  · rw [hops, hn]
    rcases h with h | ⟨hk, h1⟩
    · exact Or.inl h
    · refine Or.inr ⟨?_, h1⟩
      rcases hk with hk | hk
      · exact Or.inl (hlc.mpr hk)
      · exact Or.inr (hret.mpr hk)

theorem generate_random_instruction_go_amended (op : Opcode) (rng : Rng)
    (h : op ∈ randOpcodes) :
    arityOkAmended (Mutator.generate_random_instruction_go op rng).1 = true := by
  fin_cases h <;> rfl

theorem generate_random_instruction_amended (m : Mutator) (rng : Rng) :
    arityOkAmended (m.generate_random_instruction rng).1 = true := by
  unfold Mutator.generate_random_instruction
  refine generate_random_instruction_go_amended _ _ ?_
  exact getD_opcode_prop _ (fun x hx => hx) (by decide)



theorem mutate_block_go_amended (m : Mutator) (l : List Instruction) :
    ∀ (acc : List Instruction) (rng : Rng),
      (∀ i ∈ acc, arityOkAmended i = true) → (∀ i ∈ l, arityOkAmended i = true) →
      ∀ j ∈ (m.mutate_block_go acc l rng).1, arityOkAmended j = true := by
  induction l with
  | nil =>
    intro acc rng hacc _ j hj
    exact hacc j hj
  | cons inst rest ih =>
    intro acc rng hacc hl j hj
    have hinst : arityOkAmended inst = true := hl inst (List.mem_cons_self _ _)
    have hrest : ∀ i ∈ rest, arityOkAmended i = true :=
      fun i hi => hl i (List.mem_cons.mpr (Or.inr hi))
    simp only [Mutator.mutate_block_go] at hj
    set p1 := rng.genF32 with hp1
    set pm := if p1.1 < m.config.point_mutation_rate
      then m.point_mutate inst p1.2 else (inst, p1.2) with hpm
    have hpm1 : arityOkAmended pm.1 = true := by
      rw [hpm]
      split
      · exact point_mutate_amended m inst p1.2 hinst
      · exact hinst
    by_cases h2 : pm.2.genF32.1 < m.config.deletion_rate ∧
        1 < acc.length + (pm.1 :: rest).length
    · rw [if_pos h2] at hj
      exact ih acc pm.2.genF32.2 hacc hrest j hj
    · rw [if_neg h2] at hj
      by_cases h3 : pm.2.genF32.2.genF32.1 < m.config.insertion_rate ∧
          acc.length + (pm.1 :: rest).length < m.config.max_instructions_per_function
      · rw [if_pos h3] at hj
        refine ih _ _ ?_ hrest j hj
        intro i hi
        rcases List.mem_append.mp hi with hi | hi
        · exact hacc i hi
        · rcases List.mem_cons.mp hi with rfl | hi
          · exact generate_random_instruction_amended m _
          · rcases List.mem_cons.mp hi with rfl | hi
            · exact hpm1
            · simp at hi
      · rw [if_neg h3] at hj
        refine ih _ _ ?_ hrest j hj
        intro i hi
        rcases List.mem_append.mp hi with hi | hi
        · exact hacc i hi
        · rcases List.mem_cons.mp hi with rfl | hi
          · exact hpm1
          · simp at hi



theorem getD_prop {α : Type _} {P : α → Prop} {l : List α} {d : α} (k : ℕ)
    (hl : ∀ x ∈ l, P x) (hd : P d) : P (l.getD k d) := by
  rw [List.getD_eq_getElem?_getD]
  cases h : l[k]? with
  | none => simpa using hd
  | some x => simpa using hl x (List.getElem?_mem h)

theorem mutate_block_amended (m : Mutator) (b : BasicBlock) (rng : Rng)
    (h : ∀ i ∈ b.instructions, arityOkAmended i = true) :
    ∀ j ∈ (m.mutate_block b rng).1.instructions, arityOkAmended j = true :=
  fun j hj => mutate_block_go_amended m b.instructions [] rng (by simp) h j hj

theorem mutate_blocks_amended (m : Mutator) (bs : List BasicBlock) (rng : Rng)
    (h : ∀ b ∈ bs, ∀ i ∈ b.instructions, arityOkAmended i = true) :
    ∀ b ∈ (m.mutate_blocks bs rng).1, ∀ i ∈ b.instructions, arityOkAmended i = true := by
  induction bs generalizing rng with
  | nil =>
    intro b hb
    simp [Mutator.mutate_blocks] at hb
  | cons b0 rest ih =>
    intro b hb
    simp only [Mutator.mutate_blocks] at hb
    rcases List.mem_cons.mp hb with rfl | hb
    · exact mutate_block_amended m b0 rng (h b0 (List.mem_cons_self _ _))
    · exact ih _ (fun b2 hb2 => h b2 (List.mem_cons.mpr (Or.inr hb2))) b hb

theorem mutate_function_amended (m : Mutator) (f : Function) (rng : Rng)
    (h : ∀ b ∈ f.blocks, ∀ i ∈ b.instructions, arityOkAmended i = true) :
    ∀ b ∈ (m.mutate_function f rng).1.blocks, ∀ i ∈ b.instructions,
      arityOkAmended i = true := by
  have hbs : ∀ b ∈ (m.mutate_blocks f.blocks rng).1, ∀ i ∈ b.instructions,
      arityOkAmended i = true := mutate_blocks_amended m f.blocks rng h
  unfold Mutator.mutate_function
  simp only
  split <;> (try split) <;> intro b hb <;>
    first
      | exact hbs b hb
      | (rcases List.mem_append.mp hb with hb1 | hb1
         · exact hbs b hb1
         · rcases List.mem_cons.mp hb1 with rfl | hb2
           · exact getD_prop _ hbs (by intro i hi; simp [BasicBlock.new] at hi)
           · simp at hb2)



theorem gen_insts_amended (m : Mutator) (n : ℕ) (rng : Rng) :
    ∀ i ∈ (m.gen_insts n rng).1, arityOkAmended i = true := by
  induction n generalizing rng with
  | zero => intro i hi; simp [Mutator.gen_insts] at hi
  | succ n ih =>
    intro i hi
    simp only [Mutator.gen_insts] at hi
    rcases List.mem_cons.mp hi with rfl | hi
    · exact generate_random_instruction_amended m rng
    · exact ih _ i hi

theorem generate_random_function_amended (m : Mutator) (rng : Rng) :
    ∀ b ∈ (m.generate_random_function rng).1.blocks, ∀ i ∈ b.instructions,
      arityOkAmended i = true := by
  unfold Mutator.generate_random_function
  simp only
  intro b hb
  rcases List.mem_cons.mp hb with rfl | hb
  · intro i hi
    rcases List.mem_append.mp hi with hi | hi
    · exact gen_insts_amended m _ _ i hi
    · rcases List.mem_cons.mp hi with rfl | hi
      · rfl
      · simp at hi
  · simp at hb

theorem mutate_functions_amended (m : Mutator) (fs : List Function) (rng : Rng)
    (h : ∀ f ∈ fs, ∀ b ∈ f.blocks, ∀ i ∈ b.instructions, arityOkAmended i = true) :
    ∀ f ∈ (m.mutate_functions fs rng).1, ∀ b ∈ f.blocks, ∀ i ∈ b.instructions,
      arityOkAmended i = true := by
  induction fs generalizing rng with
  | nil => intro f hf; simp [Mutator.mutate_functions] at hf
  | cons f0 rest ih =>
    intro f hf
    simp only [Mutator.mutate_functions] at hf
    rcases List.mem_cons.mp hf with rfl | hf
    · exact mutate_function_amended m f0 rng (h f0 (List.mem_cons_self _ _))
    · exact ih _ (fun f2 hf2 => h f2 (List.mem_cons.mpr (Or.inr hf2))) f hf

theorem programArityOkAmended_iff (p : Program) :
    programArityOkAmended p = true ↔
      ∀ f ∈ p.functions, ∀ b ∈ f.blocks, ∀ i ∈ b.instructions, arityOkAmended i = true := by
  simp [programArityOkAmended, List.all_eq_true]

theorem arityOk_imp_amended (i : Instruction) (h : arityOk i = true) :
    arityOkAmended i = true := by
  simp [arityOkAmended, h]

theorem mutate_amended (m : Mutator) (p : Program) (rng : Rng)
    (h : programArityOkAmended p = true) :
    programArityOkAmended (m.mutate p rng).1 = true := by
  rw [programArityOkAmended_iff] at h ⊢
  have hfs := mutate_functions_amended m p.functions rng h
  unfold Mutator.mutate
  simp only
  split
  · intro f hf
    rcases List.mem_append.mp hf with hf | hf
    · exact hfs f hf
    · rcases List.mem_cons.mp hf with rfl | hf
      · exact generate_random_function_amended m _
      · simp at hf
  · exact hfs

/-! ## Claim C7 -/

/-- C7 (amended): `validate_program` returns a `Validation` error **iff**
`init` is missing, or `step` is missing, or some function has zero basic
blocks, or some function has an empty non-terminal block; and (corrected
"in particular") every program containing `init` and `step` in which
every function has at least one block and every non-terminal block is
non-empty is accepted.  (As stated the claim's "in particular" clause
omitted the zero-block condition; see the counterexample.) -/
theorem c7_validator_iff_amended :
    (∀ p : Program,
      (∃ e, validate_program p = .error e) ↔
        (p.get_init_function = none ∨ p.get_step_function = none ∨
         (∃ f ∈ p.functions, f.blocks = []) ∨
         (∃ f ∈ p.functions, ∃ i, i + 1 < f.blocks.length ∧
            (f.blocks.getD i BasicBlock.new).is_empty = true))) ∧
    (∀ p : Program, p.get_init_function.isSome = true →
      p.get_step_function.isSome = true →
      (∀ f ∈ p.functions, f.blocks ≠ []) →
      (∀ f ∈ p.functions, ∀ i, i + 1 < f.blocks.length →
        ¬(f.blocks.getD i BasicBlock.new).is_empty = true) →
      validate_program p = .ok ()) := by
  have main : ∀ p : Program,
      (∃ e, validate_program p = .error e) ↔
        (p.get_init_function = none ∨ p.get_step_function = none ∨
         (∃ f ∈ p.functions, f.blocks = []) ∨
         (∃ f ∈ p.functions, ∃ i, i + 1 < f.blocks.length ∧
            (f.blocks.getD i BasicBlock.new).is_empty = true)) := by
    intro p
    rw [except_error_iff, validate_program_ok, funs_loop_iff]
    constructor
    · intro hne
      by_cases hA : p.get_init_function.isSome = true
      · by_cases hB : p.get_step_function.isSome = true
        · have hC : ¬ (∀ f ∈ p.functions, f.blocks ≠ [] ∧
              ∀ i, i + 1 < f.blocks.length →
                ¬(f.blocks.getD i BasicBlock.new).is_empty = true) := by
            intro hC
            exact hne ⟨hA, hB, hC⟩
          push_neg at hC
          obtain ⟨f, hf, hbad⟩ := hC
          by_cases hz : f.blocks = []
          · exact Or.inr (Or.inr (Or.inl ⟨f, hf, hz⟩))
          · obtain ⟨i, hi, hemp⟩ := hbad hz
            exact Or.inr (Or.inr (Or.inr ⟨f, hf, i, hi, hemp⟩))
        · refine Or.inr (Or.inl ?_)
          cases hopt : p.get_step_function
          · rfl
          · rw [hopt] at hB; simp at hB
      · refine Or.inl ?_
        cases hopt : p.get_init_function
        · rfl
        · rw [hopt] at hA; simp at hA
    · rintro (h | h | ⟨f, hf, hz⟩ | ⟨f, hf, i, hi, hemp⟩) ⟨hA, hB, hC⟩
      · rw [h] at hA; simp at hA
      · rw [h] at hB; simp at hB
      · exact (hC f hf).1 hz
      · exact (hC f hf).2 i hi hemp
  refine ⟨main, ?_⟩
  intro p h1 h2 h3 h4
  by_contra hne
  have herr : ∃ e, validate_program p = .error e := by
    cases hv : validate_program p with
    | error e => exact ⟨e, rfl⟩
    | ok u => cases u; exact absurd hv hne
  rcases (main p).mp herr with h | h | ⟨f, hf, hz⟩ | ⟨f, hf, i, hi, hemp⟩
  · rw [h] at h1; simp at h1
  · rw [h] at h2; simp at h2
  · exact h3 f hf hz
  · exact h4 f hf i hi hemp

/-- C7, counterexample: the claim's "in particular" clause is false as
stated.  This program contains `init` and `step` (with non-empty blocks)
and has no empty non-terminal block anywhere — every function with zero
blocks vacuously has none — yet `validate_program` rejects it, because
the third function has zero basic blocks. -/
theorem c7_validator_zero_blocks_counterexample :
    zeroBlockProgram.get_init_function.isSome = true ∧
    zeroBlockProgram.get_step_function.isSome = true ∧
    (∀ f ∈ zeroBlockProgram.functions, ∀ pr ∈ f.blocks.enum,
      ¬(pr.2.is_empty = true ∧ pr.1 < f.blocks.length - 1)) ∧
    validate_program zeroBlockProgram = .error "Function 2 has no basic blocks" := by
  refine ⟨by decide, by decide, by decide, rfl⟩

/-- C7 witness: the amended acceptance statement applied to a concrete
two-function program with `init` and `step`. -/
theorem c7_validator_iff_amended_witness :
    validate_program initStepProgram = .ok () := by
  refine c7_validator_iff_amended.2 initStepProgram (by decide) (by decide) (by decide) ?_
  intro f hf i hi
  fin_cases hf <;> simp [initStepProgram] at hi

/-! ## Claim C6 -/

/-- C6, counterexample: as stated the claim is false.  Starting from the
valid one-function program `init { return }` (every instruction matches
the arity table), there is a seed under which `mutate` inserts a
`LoadConst` instruction carrying one immediate operand — but
`num_operands(LoadConst) = 0` — and appends a fresh function whose final
`Return` carries one operand — but `num_operands(Return) = 0`.  The
mutated program therefore violates the arity table. -/
theorem c6_mutation_arity_counterexample :
    programArityOk initReturnProgram = true ∧
    programArityOk c6Mutated = false ∧
    (∃ f ∈ c6Mutated.functions, ∃ b ∈ f.blocks, ∃ i ∈ b.instructions,
       i.opcode = .LoadConst ∧ i.operands.length = 1) ∧
    (∃ f ∈ c6Mutated.functions, ∃ b ∈ f.blocks, ∃ i ∈ b.instructions,
       i.opcode = .Return ∧ i.operands.length = 1) := by
  set_option maxRecDepth 100000 in decide

/-- C6 (amended): after any `mutate` on a program whose instructions all
match the `num_operands` arity table, every instruction of the result
still matches the table **except** that `LoadConst` and `Return`
instructions may carry one operand (the shape produced by the
`load_const`/`return_value` builders and by the random generator) —
`arityOkAmended`.  No other opcode's arity is ever violated. -/
theorem c6_mutation_arity_amended :
    ∀ (m : Mutator) (p : Program) (rng : Rng),
      programArityOk p = true →
      programArityOkAmended (m.mutate p rng).1 = true := by
  intro m p rng h
  refine mutate_amended m p rng ?_
  rw [programArityOkAmended_iff]
  have hstrict : ∀ f ∈ p.functions, ∀ b ∈ f.blocks, ∀ i ∈ b.instructions,
      arityOk i = true := by
    simpa [programArityOk, List.all_eq_true] using h
  exact fun f hf b hb i hi => arityOk_imp_amended i (hstrict f hf b hb i hi)

/-- C6 witness: the amended theorem applied to the concrete valid program
`init { return }` and a concrete stream. -/
theorem c6_mutation_arity_amended_witness :
    programArityOk initReturnProgram = true ∧
    programArityOkAmended ((Mutator.mk MutationConfig.default).mutate
      initReturnProgram ⟨fun _ => 0, 0⟩).1 = true :=
  ⟨by decide, c6_mutation_arity_amended _ _ _ (by decide)⟩

/-! ## Association-list (`HashMap`) lemmas -/

/-- Looking up the updated key returns the mapped value. -/
theorem alookup_aupdate_self {α β : Type _} [DecidableEq α] (k : α) (f : β → β) :
    ∀ l : List (α × β), alookup k (aupdate k f l) = (alookup k l).map f
  | [] => rfl
  | (a, b) :: tl => by
    show alookup k ((if a = k then (a, f b) else (a, b)) :: aupdate k f tl) = _
    by_cases h : a = k
    · rw [if_pos h]
      show (if a = k then some (f b) else alookup k (aupdate k f tl)) = _
      rw [if_pos h]
      show _ = (if a = k then some b else alookup k tl).map f
      rw [if_pos h]
      rfl
    · rw [if_neg h]
      show (if a = k then some b else alookup k (aupdate k f tl)) = _
      rw [if_neg h]
      show _ = (if a = k then some b else alookup k tl).map f
      rw [if_neg h]
      exact alookup_aupdate_self k f tl

/-- Updating a different key leaves a lookup unchanged. -/
theorem alookup_aupdate_ne {α β : Type _} [DecidableEq α] {k k2 : α} (h : k2 ≠ k)
    (f : β → β) : ∀ l : List (α × β), alookup k (aupdate k2 f l) = alookup k l
  | [] => rfl
  | (a, b) :: tl => by
    show alookup k ((if a = k2 then (a, f b) else (a, b)) :: aupdate k2 f tl) = _
    by_cases h2 : a = k2
    · have h3 : ¬ a = k := by rw [h2]; exact h
      rw [if_pos h2]
      show (if a = k then some (f b) else alookup k (aupdate k2 f tl)) = _
      rw [if_neg h3]
      show _ = (if a = k then some b else alookup k tl)
      rw [if_neg h3]
      exact alookup_aupdate_ne h f tl
    · rw [if_neg h2]
      show (if a = k then some b else alookup k (aupdate k2 f tl)) = _
      show _ = (if a = k then some b else alookup k tl)
      by_cases h3 : a = k
      · rw [if_pos h3, if_pos h3]
      · rw [if_neg h3, if_neg h3]
        exact alookup_aupdate_ne h f tl

/-- Erasing a different key leaves a lookup unchanged. -/
theorem alookup_aerase_ne {α β : Type _} [DecidableEq α] {k k2 : α} (h : k2 ≠ k) :
    ∀ l : List (α × β), alookup k (aerase k2 l) = alookup k l
  | [] => rfl
  | (a, b) :: tl => by
    show alookup k (List.filter (fun pr => decide (pr.1 ≠ k2)) ((a, b) :: tl)) = _
    rw [List.filter_cons]
    by_cases h2 : a = k2
    · have h3 : ¬ a = k := by rw [h2]; exact h
      rw [if_neg (by simp [h2])]
      show alookup k (aerase k2 tl) = (if a = k then some b else alookup k tl)
      rw [if_neg h3]
      exact alookup_aerase_ne h tl
    · rw [if_pos (by simp [h2])]
      show (if a = k then some b else alookup k (aerase k2 tl)) =
        (if a = k then some b else alookup k tl)
      by_cases h3 : a = k
      · rw [if_pos h3, if_pos h3]
      · rw [if_neg h3, if_neg h3]
        exact alookup_aerase_ne h tl

/-- Looking up a freshly inserted key returns the inserted value. -/
theorem alookup_ainsert_self {α β : Type _} [DecidableEq α] (k : α) (v : β)
    (l : List (α × β)) : alookup k (ainsert k v l) = some v := by
  show (if k = k then some v else alookup k (aerase k l)) = some v
  rw [if_pos rfl]

/-- Inserting a different key leaves a lookup unchanged. -/
theorem alookup_ainsert_ne {α β : Type _} [DecidableEq α] {k k2 : α} (h : k2 ≠ k)
    (v : β) (l : List (α × β)) : alookup k (ainsert k2 v l) = alookup k l := by
  show (if k2 = k then some v else alookup k (aerase k2 l)) = alookup k l
  rw [if_neg h]
  exact alookup_aerase_ne h l

/-! ## Simulation-layer helper lemmas -/

/-- The first element of the radius-1 neighbor list is the *unwrapped*
position `pos.add(-1, -1)` with its tile. -/
theorem neighbors_head (g : Grid) (p : Position) :
    (g.neighbors p 1).head? = some (p.add (-1) (-1), g.get (p.add (-1) (-1))) := rfl

/-- The `as i32` cast of an exactly-represented integer in `i32` range is
the identity. -/
theorem f32toI32_intCast {m : ℤ} (h1 : -(2 ^ 31) ≤ m) (h2 : m ≤ 2 ^ 31 - 1) :
    f32toI32 ((m : ℤ) : ℚ) = m := by
  unfold f32toI32 ratTrunc
  rw [Rat.num_intCast, Rat.den_intCast, Nat.cast_one, Int.tdiv_one, imin_eq_min,
    imax_eq_max, min_eq_right h2, max_eq_right h1]

/-- If `find?` locates the first suitable neighbor, the reproduce spawn
loop lands exactly on it. -/
theorem reproduce_spawn_loop_of_find (st : Simulation) (id pbt plin : ℕ) (g : Program) :
    ∀ (l : List (Position × Tile)) (nb : Position × Tile),
      l.find? st.reproduce_suitable = some nb →
      st.reproduce_spawn_loop id pbt plin g l =
        st.reproduce_spawn_success id pbt plin g nb
  | [], nb, h => by simp [List.find?] at h
  | hd :: tl, nb, h => by
    by_cases hc : st.reproduce_suitable hd
    · rw [List.find?_cons_of_pos _ hc] at h
      injection h with h
      subst h
      show (if st.reproduce_suitable hd = true then _ else _) = _
      rw [if_pos hc]
    · rw [List.find?_cons_of_neg _ hc] at h
      show (if st.reproduce_suitable hd = true then _ else _) = _
      rw [if_neg hc]
      exact reproduce_spawn_loop_of_find st id pbt plin g tl nb h

/-- A `Reproduce` action that passes the energy and population checks and
whose neighbor scan finds a suitable tile reduces to the spawn-success
state: the parent charged and credited an offspring, the RNG advanced by
the genome mutation, and the offspring spawned at the found neighbor. -/
theorem apply_reproduce_success_eq (st : Simulation) (id : ℕ) (energy : ℤ)
    (parent : Organism) (nb : Position × Tile)
    (hc1 : ¬ energy < st.config.energy_config.reproduce_cost)
    (hc2 : ¬ energy < st.config.energy_config.min_reproduce_energy)
    (hpop : st.organisms.length < st.config.dynamic_rules.max_population)
    (hpar : alookup id st.organisms = some parent)
    (hfind : (st.grid.neighbors parent.position 1).find? st.reproduce_suitable = some nb) :
    st.apply_reproduce id energy =
      Simulation.reproduce_spawn_success
        { st with
          reproduction_attempts := st.reproduction_attempts + 1,
          organisms := (aupdate id (fun p =>
            ((p.consume_energy st.config.energy_config.reproduce_cost).1).record_offspring)
            st.organisms),
          rng := (st.mutator.mutate parent.genome st.rng).2 }
        id parent.birth_tick parent.lineage_id
        (st.mutator.mutate parent.genome st.rng).1 nb := by
  simp only [Simulation.apply_reproduce]
  rw [if_neg (fun h => h.elim hc1 hc2), if_neg (by omega)]
  split
  · rename_i hnone
    have h2 : (none : Option Organism) = some parent := by
      rw [← hnone]; exact hpar
    cases h2
  · rename_i parent2 heq
    have h2 : some parent2 = some parent := by
      rw [← heq]; exact hpar
    injection h2 with h2
    subst h2
    exact reproduce_spawn_loop_of_find _ id parent2.birth_tick parent2.lineage_id _ _ nb hfind


/-! ## Claim C9: `Organism::consume_energy` -/

/-- C9: `Organism::consume_energy(amount)` with `amount ≥ 0` (and `i32`
energy) returns `true` and decreases the energy by exactly `amount` when
`energy ≥ amount`; otherwise it sets the energy to exactly `0` and
returns `false`; in both cases the resulting energy is nonnegative, so
no engine charge routed through `consume_energy` (basal, instruction,
move, attack cost, attack damage, reproduce cost, hazard damage) leaves
an organism with negative energy. -/
theorem c9_consume_energy_spec (o : Organism) (amount : ℤ)
    (h1 : inI32 o.energy) (h2 : 0 ≤ amount) :
    (amount ≤ o.energy →
        (o.consume_energy amount).2 = true ∧
        (o.consume_energy amount).1.energy = o.energy - amount) ∧
    (o.energy < amount →
        (o.consume_energy amount).2 = false ∧
        (o.consume_energy amount).1.energy = 0) ∧
    0 ≤ (o.consume_energy amount).1.energy := by
  obtain ⟨hl, hr⟩ := h1
  constructor
  · intro hle
    unfold Organism.consume_energy
    rw [if_pos hle]
    exact ⟨rfl, wrap32_eq_self (by omega) (by omega)⟩
  constructor
  · intro hlt
    unfold Organism.consume_energy
    rw [if_neg (by omega)]
    exact ⟨rfl, rfl⟩
  · unfold Organism.consume_energy
    split
    · rename_i hle
      show (0 : ℤ) ≤ wrap32 (o.energy - amount)
      rw [wrap32_eq_self (by omega) (by omega)]
      omega
    · exact le_refl 0

/-- C9 witness: the organism `c3Org` (energy 100) charged 30. -/
theorem c9_consume_energy_spec_witness :
    inI32 c3Org.energy ∧ (0 : ℤ) ≤ 30 ∧
    ((c3Org.consume_energy 30).2 = true ∧ (c3Org.consume_energy 30).1.energy = 70) ∧
    0 ≤ (c3Org.consume_energy 30).1.energy := by
  have h := c9_consume_energy_spec c3Org 30 (by constructor <;> decide) (by decide)
  exact ⟨⟨by decide, by decide⟩, by decide,
    ⟨(h.1 (by decide)).1, ((h.1 (by decide)).2).trans (by decide)⟩, h.2.2⟩

/-! ## Claim C3: the positions-table bijection after `step()` -/

/-- C3: the bijection between live organisms and position-table entries
is broken by one tick.  A single organism (id 0, at the origin, energy
100) enqueues two `Move` actions in one tick; both are applied with the
*pre-loop* snapshot of its position and energy, so the second move
removes the stale snapshot position instead of the organism's current
tile.  After the action loop, hazards and the dead-reaping pass, the
position table holds two entries (both mapping to id 0, one of them a
tile the organism no longer occupies) while exactly one live organism
exists — `|positions| = 2 ≠ 1 = |live organisms|`. -/
theorem c3_positions_bijection_broken :
    ((c3State.step_actions_phase 0 [Action.Move 1 0, Action.Move 0 1]
       ).organism_positions.length = 2) ∧
    ((c3State.step_actions_phase 0 [Action.Move 1 0, Action.Move 0 1]
       ).organisms.length = 1) ∧
    alookup (Position.new 1 0)
      (c3State.step_actions_phase 0 [Action.Move 1 0, Action.Move 0 1]
        ).organism_positions = some 0 ∧
    (alookup 0 (c3State.step_actions_phase 0 [Action.Move 1 0, Action.Move 0 1]
       ).organisms).map Organism.position = some (Position.new 0 1) ∧
    (2 : ℕ) ≠ 1 := by
  decide

/-! ## Claim C1: determinism of `SimulationResult` -/

/-- C1: the final `SimulationResult` is *not* a function of the config
and seed genomes alone.  Two constructions over the identical config
(`smallJob`, seed 42), identical genome list and the identical seeded
keystream, differing only in the OS entropy consumed by
`Uuid::new_v4` (`OrganismId::new`), produce different survivor id lists
(`[7]` vs `[8]`) and hence different `SimulationResult` values from
`run()` with `num_ticks = 0`. -/
theorem c1_result_depends_on_os_entropy :
    c1SurvivorIds 7 = [7] ∧ c1SurvivorIds 8 = [8] ∧
    (c1New 7).map Simulation.run_zero ≠ (c1New 8).map Simulation.run_zero := by
  refine ⟨by decide, by decide, fun h => ?_⟩
  have h2 := congrArg (fun e : Except String SimulationResult =>
    match e with
    | .ok r => r.survivors.map OrganismData.id
    | .error _ => ([] : List ℕ)) h
  revert h2
  decide

/-! ## Claim C4: the attack charge -/

/-- C4 (amended): with combat allowed and snapshot energy at least
`attack_cost`, the attack resolution examines only the *first* neighbor
(the unwrapped `pos.add(-1,-1)`): if the position table has no entry for
that one cell, the state is returned entirely unchanged — the attacker
is *not* charged, even if a target sits on another adjacent cell; if
that cell holds another organism `tid ≠ id`, the attacker is charged
`attack_cost` exactly once. -/
theorem c4_attack_charge_amended (st : Simulation) (id : ℕ) (slot amount : ℤ)
    (pos : Position) (energy : ℤ)
    (hc : st.config.dynamic_rules.allow_combat = true)
    (hcost : ¬ energy < st.config.energy_config.attack_cost) :
    (alookup (pos.add (-1) (-1)) st.organism_positions = none →
      st.apply_action id (Action.Attack slot amount) pos energy = st) ∧
    (∀ tid att, alookup (pos.add (-1) (-1)) st.organism_positions = some tid →
      tid ≠ id → alookup id st.organisms = some att →
      (alookup id (st.apply_action id (Action.Attack slot amount) pos energy).organisms
        ).map Organism.energy
        = some ((att.consume_energy st.config.energy_config.attack_cost).1.energy)) := by
  constructor
  · intro hnone
    simp only [Simulation.apply_action]
    rw [if_pos hc, if_neg hcost]
    split
    · rfl
    · rename_i nb heq
      rw [neighbors_head] at heq
      injection heq with heq
      subst heq
      split
      · rfl
      · rename_i tid hsome
        have hsome2 : alookup (pos.add (-1) (-1)) st.organism_positions = some tid := hsome
        rw [hnone] at hsome2
        cases hsome2
  · intro tid att hsome hne hatt
    simp only [Simulation.apply_action]
    rw [if_pos hc, if_neg hcost]
    split
    · rename_i heq
      rw [neighbors_head] at heq
      cases heq
    · rename_i nb heq
      rw [neighbors_head] at heq
      injection heq with heq
      subst heq
      split
      · rename_i hnone2
        have h4 : alookup (pos.add (-1) (-1)) st.organism_positions = none := hnone2
        rw [hsome] at h4
        cases h4
      · rename_i tid2 hsome2
        have h4 : alookup (pos.add (-1) (-1)) st.organism_positions = some tid2 := hsome2
        rw [hsome] at h4
        injection h4 with h4
        subst h4
        rw [alookup_aupdate_self, alookup_aupdate_ne hne, hatt]
        simp only [Option.map_some']
        congr 1
        split
        · rfl
        · rfl

/-- C4 witness: attacker (id 1, energy 100) at `(1,1)` with a target on
its first neighbor cell `(0,0)` ends with energy `100 - 10 = 90`. -/
theorem c4_attack_charge_amended_witness :
    c4State.config.dynamic_rules.allow_combat = true ∧
    ¬ (100 : ℤ) < c4State.config.energy_config.attack_cost ∧
    alookup ((Position.new 1 1).add (-1) (-1)) c4State.organism_positions = some 2 ∧
    (alookup 1 (c4State.apply_action 1 (Action.Attack 0 10) (Position.new 1 1) 100
      ).organisms).map Organism.energy = some 90 := by
  have h := (c4_attack_charge_amended c4State 1 0 10 (Position.new 1 1) 100 rfl
    (by decide)).2 2 c4Attacker (by decide) (by decide) (by decide)
  exact ⟨rfl, by decide, by decide, h.trans (by decide)⟩

/-- C4 counterexample to the original claim: combat allowed, energy 100
at least `attack_cost = 10`, a target on the *adjacent* cell `(2,1)` —
but the first neighbor `(0,0)` is empty, so the attack returns the state
unchanged and the attacker keeps energy 100 instead of being charged. -/
theorem c4_attack_no_first_target_counterexample :
    c4bState.apply_action 1 (Action.Attack 0 10) (Position.new 1 1) 100 = c4bState ∧
    (alookup 1 c4bState.organisms).map Organism.energy = some 100 ∧
    alookup (Position.new 2 1) c4bState.organism_positions = some 2 ∧
    (Position.new 2 1) ∈ (c4bState.grid.neighbors (Position.new 1 1) 1).map Prod.fst ∧
    ¬ (100 : ℤ) < c4bState.config.energy_config.attack_cost ∧
    (100 : ℤ) ≠ 100 - c4bState.config.energy_config.attack_cost := by
  refine ⟨rfl, by decide, by decide, by decide, by decide, by decide⟩


/-! ## Claim C2: reproduction energy accounting -/

/-- C2 (amended): when a `Reproduce` action succeeds — allowed, snapshot
energy at least `reproduce_cost` and `min_reproduce_energy`, population
below `max_population`, parent present and the neighbor scan finding a
suitable tile — the offspring's `birth_tick` is the current tick, its
`lineage_id` is the parent's, and it spawns on the wrapped found
neighbor; but its energy is `initial_energy / 2` only for parents with
`birth_tick ≤ 1`: a parent with `birth_tick > 1` hands the offspring
`5 * (initial_energy / 2)` and additionally receives a flat `+1000`
energy bonus on top of the `reproduce_cost` charge.  The bound
`initial_energy ≤ 6710886` keeps `5 * (initial_energy / 2) ≤ 2^24`, so
the `f32` cast and multiply are exact; above it the rounded product can
differ (for example `(3355445 as f32 * 5.0) as i32 = 16777224`, one
below the exact `16777225`). -/
theorem c2_reproduce_energy_amended (st : Simulation) (id : ℕ) (energy : ℤ)
    (parent : Organism) (nb : Position × Tile) (pos : Position)
    (hallow : st.config.dynamic_rules.allow_reproduction = true)
    (hc1 : ¬ energy < st.config.energy_config.reproduce_cost)
    (hc2 : ¬ energy < st.config.energy_config.min_reproduce_energy)
    (hpop : st.organisms.length < st.config.dynamic_rules.max_population)
    (hpar : alookup id st.organisms = some parent)
    (hfind : (st.grid.neighbors parent.position 1).find? st.reproduce_suitable = some nb)
    (hfresh : st.entropy.stream st.entropy.idx ≠ id)
    (hinit0 : 0 ≤ st.config.energy_config.initial_energy)
    (hinit1 : st.config.energy_config.initial_energy ≤ 6710886) :
    (∃ off : Organism,
       alookup (st.entropy.stream st.entropy.idx)
         (st.apply_action id Action.Reproduce pos energy).organisms = some off ∧
       off.energy = (if 1 < parent.birth_tick then
           5 * st.config.energy_config.initial_energy.tdiv 2
         else st.config.energy_config.initial_energy.tdiv 2) ∧
       off.birth_tick = st.tick ∧
       off.lineage_id = parent.lineage_id ∧
       off.position = nb.1.wrap st.grid.width st.grid.height) ∧
    (∃ par2 : Organism,
       alookup id (st.apply_action id Action.Reproduce pos energy).organisms = some par2 ∧
       par2.energy = (if 1 < parent.birth_tick then
           add32 ((parent.consume_energy st.config.energy_config.reproduce_cost).1.energy)
             1000
         else (parent.consume_energy st.config.energy_config.reproduce_cost).1.energy)) := by
  have hbase0 : 0 ≤ st.config.energy_config.initial_energy.tdiv 2 :=
    Int.tdiv_nonneg hinit0 (by norm_num)
  have hbase1 : st.config.energy_config.initial_energy.tdiv 2 ≤ 3355443 := by
    rw [Int.tdiv_eq_ediv hinit0 (by norm_num)]
    omega
  simp only [Simulation.apply_action]
  rw [if_pos hallow,
    apply_reproduce_success_eq st id energy parent nb hc1 hc2 hpop hpar hfind]
  simp only [Simulation.reproduce_spawn_success, Organism.new_with_birth_tick,
    OrganismId.new, Entropy.next]
  by_cases hb : 1 < parent.birth_tick
  · simp only [if_pos hb]
    constructor
    · refine ⟨_, alookup_ainsert_self _ _ _, ?_, rfl, rfl, rfl⟩
      show f32toI32 (f32mul (i32toF32 (st.config.energy_config.initial_energy.tdiv 2)) 5)
        = _
      rw [i32toF32, roundF32_intCast (by omega) (by omega), f32mul]
      have hcast : qmul ((st.config.energy_config.initial_energy.tdiv 2 : ℤ) : ℚ) 5 =
          ((5 * st.config.energy_config.initial_energy.tdiv 2 : ℤ) : ℚ) := by
        rw [qmul_eq]
        push_cast
        ring
      rw [hcast, roundF32_intCast (by omega) (by omega),
        f32toI32_intCast (by omega) (by omega)]
    · refine ⟨((parent.consume_energy st.config.energy_config.reproduce_cost
          ).1.record_offspring).add_energy 1000, ?_, rfl⟩
      rw [alookup_ainsert_ne hfresh, alookup_aupdate_self, alookup_aupdate_self, hpar]
      simp only [Option.map_some']
  · simp only [if_neg hb]
    constructor
    · refine ⟨_, alookup_ainsert_self _ _ _, ?_, rfl, rfl, rfl⟩
      show f32toI32 (f32mul (i32toF32 (st.config.energy_config.initial_energy.tdiv 2)) 1)
        = _
      rw [i32toF32, roundF32_intCast (by omega) (by omega), f32mul]
      have hcast : qmul ((st.config.energy_config.initial_energy.tdiv 2 : ℤ) : ℚ) 1 =
          ((st.config.energy_config.initial_energy.tdiv 2 : ℤ) : ℚ) := by
        rw [qmul_eq, mul_one]
      rw [hcast, roundF32_intCast (by omega) (by omega),
        f32toI32_intCast (by omega) (by omega)]
    · refine ⟨(parent.consume_energy st.config.energy_config.reproduce_cost
          ).1.record_offspring, ?_, rfl⟩
      rw [alookup_ainsert_ne hfresh, alookup_aupdate_self, hpar]
      simp only [Option.map_some']

/-- C2 witness: `c2State` (parent with `birth_tick = 2`, energy 1000,
`initial_energy = 1500`): the offspring gets `5 * 750 = 3750` energy at
the first neighbor `(0,0)` and the parent ends at
`1000 - 300 + 1000 = 1700`. -/
theorem c2_reproduce_energy_amended_witness :
    alookup 0 c2State.organisms = some c2Parent ∧
    (c2State.grid.neighbors c2Parent.position 1).find? c2State.reproduce_suitable
      = some (Position.new 0 0, Tile.empty) ∧
    (∃ off : Organism,
       alookup 99 (c2State.apply_action 0 Action.Reproduce (Position.new 1 1) 1000
         ).organisms = some off ∧ off.energy = 3750 ∧ off.birth_tick = 0 ∧
       off.lineage_id = 0 ∧ off.position = Position.new 0 0) ∧
    (∃ par2 : Organism,
       alookup 0 (c2State.apply_action 0 Action.Reproduce (Position.new 1 1) 1000
         ).organisms = some par2 ∧ par2.energy = 1700) := by
  obtain ⟨⟨off, h1, h2, h3, h4, h5⟩, ⟨par2, h6, h7⟩⟩ :=
    c2_reproduce_energy_amended c2State 0 1000 c2Parent (Position.new 0 0, Tile.empty)
      (Position.new 1 1) rfl (by decide) (by decide) (by decide) (by decide) (by decide)
      (by decide) (by decide) (by decide)
  refine ⟨by decide, by decide, ⟨off, h1, ?_, ?_, ?_, ?_⟩, ⟨par2, h6, ?_⟩⟩
  · rw [h2]; decide
  · rw [h3]; decide
  · rw [h4]; decide
  · rw [h5]; decide
  · rw [h7]; decide

/-- C2 counterexample to the original claim: in `c2State` the successful
reproduction hands the offspring 3750 energy instead of
`initial_energy / 2 = 750`, and moves the parent from 1000 to 1700
instead of `1000 - reproduce_cost = 700`. -/
theorem c2_reproduce_buff_counterexample :
    ((alookup 99 (c2State.apply_action 0 Action.Reproduce (Position.new 1 1) 1000
       ).organisms).map Organism.energy = some 3750) ∧
    ((alookup 0 (c2State.apply_action 0 Action.Reproduce (Position.new 1 1) 1000
       ).organisms).map Organism.energy = some 1700) ∧
    c2State.config.energy_config.initial_energy.tdiv 2 = 750 ∧
    (3750 : ℤ) ≠ 750 ∧
    c2Parent.energy - c2State.config.energy_config.reproduce_cost = 700 ∧
    (1700 : ℤ) ≠ 700 := by
  set_option maxRecDepth 10000 in decide


end Evo
